import Mathlib

/-!
Verification development for the LinkSkill Academy resume-scoring engine
(`ai_resume_score_app.py`, first `score_resume` definition, and
`ai_resume_score_app_v2.py`).

Texts are modelled as `List Char` (Python `str`).  Python float arithmetic
is idealised as exact rational arithmetic; Python `round(x, 1)` is modelled
as rounding to the nearest tenth with ties to even (`round1` below), which
is Python's documented rounding mode.  All counting, substring and regex
machinery is modelled character-exactly after the source patterns.
-/

/-- Round a rational to the nearest integer, ties to even (Python `round`). -/
def rhe (q : ℚ) : ℤ :=
  if q - ⌊q⌋ < 1/2 then ⌊q⌋
  else if 1/2 < q - ⌊q⌋ then ⌊q⌋ + 1
  else if ⌊q⌋ % 2 = 0 then ⌊q⌋ else ⌊q⌋ + 1

/-- Python `round(q, 1)`: round to one decimal place, ties to even. -/
def round1 (q : ℚ) : ℚ := (rhe (10 * q) : ℚ) / 10

theorem rhe_floor_le (q : ℚ) : ⌊q⌋ ≤ rhe q := by
  unfold rhe; split_ifs <;> omega

theorem rhe_le_floor_add_one (q : ℚ) : rhe q ≤ ⌊q⌋ + 1 := by
  unfold rhe; split_ifs <;> omega

theorem rhe_intCast (n : ℤ) : rhe (n : ℚ) = n := by
  unfold rhe
  rw [Int.floor_intCast]
  norm_num

theorem rhe_mono {a b : ℚ} (h : a ≤ b) : rhe a ≤ rhe b := by
  rcases lt_or_ge ⌊a⌋ ⌊b⌋ with hf | hf
  · calc rhe a ≤ ⌊a⌋ + 1 := rhe_le_floor_add_one a
    _ ≤ ⌊b⌋ := by omega
    _ ≤ rhe b := rhe_floor_le b
  · have hf' : ⌊a⌋ = ⌊b⌋ := le_antisymm (Int.floor_le_floor h) hf
    unfold rhe
    rw [hf']
    split_ifs <;> first | omega | (exfalso; linarith)

theorem round1_mono {a b : ℚ} (h : a ≤ b) : round1 a ≤ round1 b := by
  unfold round1
  have : rhe (10 * a) ≤ rhe (10 * b) := rhe_mono (by linarith)
  have : ((rhe (10 * a) : ℚ)) ≤ ((rhe (10 * b) : ℚ)) := by exact_mod_cast this
  linarith

theorem round1_tenth (m : ℤ) : round1 ((m : ℚ) / 10) = (m : ℚ) / 10 := by
  unfold round1
  have h10 : (10 : ℚ) * ((m : ℚ) / 10) = (m : ℚ) := by ring
  rw [h10, rhe_intCast]

theorem round1_intCast (n : ℤ) : round1 (n : ℚ) = n := by
  have := round1_tenth (10 * n)
  push_cast at this
  rw [mul_comm] at this
  rw [mul_div_assoc] at this
  norm_num at this
  simpa using this

theorem round1_zero : round1 0 = 0 := by
  have := round1_intCast 0
  simpa using this

theorem round1_nonneg {q : ℚ} (h : 0 ≤ q) : 0 ≤ round1 q := by
  have := round1_mono h
  rwa [round1_zero] at this

theorem round1_le_intCast {q : ℚ} {n : ℤ} (h : q ≤ (n : ℚ)) : round1 q ≤ (n : ℚ) := by
  have := round1_mono h
  rwa [round1_intCast] at this

theorem round1_eq_div (q : ℚ) : ∃ m : ℤ, round1 q = (m : ℚ) / 10 :=
  ⟨rhe (10 * q), rfl⟩

/-! Substring containment: Python `w in tl` on strings. -/

/-- Boolean prefix test on character lists. -/
def isPrefixB : List Char → List Char → Bool
  | [], _ => true
  | _ :: _, [] => false
  | a :: as, b :: bs => a == b && isPrefixB as bs

/-- Boolean substring-containment test: models Python `w in t` for strings. -/
def isSub (w : List Char) : List Char → Bool
  | [] => w.isEmpty
  | c :: cs => isPrefixB w (c :: cs) || isSub w cs

theorem isPrefixB_append {w a : List Char} (b : List Char)
    (h : isPrefixB w a = true) : isPrefixB w (a ++ b) = true := by
  induction w generalizing a with
  | nil => simp [isPrefixB]
  | cons c cs ih =>
    cases a with
    | nil => simp [isPrefixB] at h
    | cons d ds =>
      simp only [isPrefixB, Bool.and_eq_true] at h
      simp only [List.cons_append, isPrefixB, Bool.and_eq_true]
      exact ⟨h.1, ih h.2⟩

theorem isSub_nil_left (t : List Char) : isSub [] t = true := by
  induction t with
  | nil => rfl
  | cons c cs ih => simp [isSub, isPrefixB]

theorem isSub_append {w a : List Char} (b : List Char)
    (h : isSub w a = true) : isSub w (a ++ b) = true := by
  induction a with
  | nil =>
    simp only [isSub, List.isEmpty_iff] at h
    subst h
    exact isSub_nil_left b
  | cons c cs ih =>
    simp only [isSub, Bool.or_eq_true] at h
    rcases h with h | h
    · simp only [List.cons_append, isSub, Bool.or_eq_true]
      exact Or.inl (isPrefixB_append b h)
    · simp only [List.cons_append, isSub, Bool.or_eq_true]
      exact Or.inr (ih h)

theorem length_filter_mono {α : Type} {p q : α → Bool} (l : List α)
    (h : ∀ x, p x = true → q x = true) :
    (l.filter p).length ≤ (l.filter q).length := by
  induction l with
  | nil => simp
  | cons x xs ih =>
    by_cases hp : p x = true
    · rw [List.filter_cons_of_pos hp, List.filter_cons_of_pos (h x hp)]
      simpa using ih
    · rw [List.filter_cons_of_neg (by simpa using hp)]
      refine le_trans ih ?_
      by_cases hq : q x = true
      · rw [List.filter_cons_of_pos hq]; simp
      · rw [List.filter_cons_of_neg (by simpa using hq)]

/-! Character classes and scanners modelling the source's regexes. -/

/-- Regex word character `\w` (ASCII): alphanumeric or underscore. -/
def wordCharB (c : Char) : Bool := c.isAlphanum || c == '_'

/-- Number of whitespace-separated words: Python `len(s.split())`. -/
def countWordsAux : Bool → List Char → Nat
  | _, [] => 0
  | inw, c :: cs =>
    if c.isWhitespace then countWordsAux false cs
    else (if inw then 0 else 1) + countWordsAux true cs

def countWords (l : List Char) : Nat := countWordsAux false l

/-- Scanner state for the quantified-token count. -/
inductive NumSt
  | s0
  | s1
  | sd
  | sk

/-- Single-pass scanner equivalent to `len(re.findall(r"\b\d+[%k]?\b", s))`:
`s0` after a non-word character, `s1` inside a non-candidate word, `sd`
inside a candidate digit run, `sk` after a candidate run followed by `k`. -/
def numsAux : NumSt → List Char → Nat
  | NumSt.sd, [] => 1
  | NumSt.sk, [] => 1
  | _, [] => 0
  | NumSt.s0, c :: cs =>
    if c.isDigit then numsAux NumSt.sd cs
    else if wordCharB c then numsAux NumSt.s1 cs
    else numsAux NumSt.s0 cs
  | NumSt.s1, c :: cs =>
    if wordCharB c then numsAux NumSt.s1 cs else numsAux NumSt.s0 cs
  | NumSt.sd, c :: cs =>
    if c.isDigit then numsAux NumSt.sd cs
    else if c == 'k' then numsAux NumSt.sk cs
    else if c == '%' then 1 + numsAux NumSt.s0 cs
    else if wordCharB c then numsAux NumSt.s1 cs
    else 1 + numsAux NumSt.s0 cs
  | NumSt.sk, c :: cs =>
    if wordCharB c then numsAux NumSt.s1 cs else 1 + numsAux NumSt.s0 cs

def countNums (l : List Char) : Nat := numsAux NumSt.s0 l

/-- Count of matches of `(\n[-•·])|•`: the bullet-marker count. -/
def countBullets : List Char → Nat
  | '\n' :: c :: cs =>
    if c == '-' || c == '•' || c == '·' then 1 + countBullets cs
    else countBullets (c :: cs)
  | '•' :: cs => 1 + countBullets cs
  | _ :: cs => countBullets cs
  | [] => 0

/-- Character class `[A-Za-z0-9._%+-]` of the email regex's local part. -/
def emailLocalChar (c : Char) : Bool :=
  c.isAlphanum || c == '.' || c == '_' || c == '%' || c == '+' || c == '-'

/-- Character class `[A-Za-z0-9.-]` of the email regex's domain part. -/
def emailDomChar (c : Char) : Bool := c.isAlphanum || c == '.' || c == '-'

/-- After an `@`: does `[A-Za-z0-9.-]+\.[A-Za-z]{2,}` match a prefix here
(for some backtracking choice)?  The flag records whether at least one
domain character has been consumed. -/
def emailTailAux : Bool → List Char → Bool
  | _, [] => false
  | seen, c :: cs =>
    (seen && c == '.' &&
      (match cs with
       | a :: b :: _ => a.isAlpha && b.isAlpha
       | _ => false))
    || (emailDomChar c && emailTailAux true cs)

/-- Existence of a match of `[A-Za-z0-9._%+-]+@[A-Za-z0-9.-]+\.[A-Za-z]{2,}`. -/
def emailAux : List Char → Bool
  | a :: '@' :: cs =>
    (emailLocalChar a && emailTailAux false cs) || emailAux ('@' :: cs)
  | _ :: cs => emailAux cs
  | [] => false

def emailPresent (l : List Char) : Bool := emailAux l

/-- Consume exactly `n` digits, returning the remainder. -/
def dropDigits : Nat → List Char → Option (List Char)
  | 0, l => some l
  | _ + 1, [] => none
  | n + 1, c :: cs => if c.isDigit then dropDigits n cs else none

/-- Word boundary after a word character: next char absent or non-word. -/
def phoneEndB : List Char → Bool
  | [] => true
  | c :: _ => !(wordCharB c)

/-- `\d{10}\b` matches a prefix here. -/
def phoneTen (l : List Char) : Bool :=
  match dropDigits 10 l with
  | some r => phoneEndB r
  | none => false

/-- `\d{1,3}[-\s]?\d{10}\b` matches a prefix here. -/
def phoneGroup (l : List Char) : Bool :=
  [1, 2, 3].any fun d =>
    match dropDigits d l with
    | none => false
    | some r =>
      phoneTen r ||
      (match r with
       | s :: r2 => (s == '-' || s.isWhitespace) && phoneTen r2
       | [] => false)

/-- Does `\b(\+?\d{1,3}[-\s]?)?\d{10}\b` match starting at this position,
given whether the previous character is a word character? -/
def phoneTry (prevW : Bool) (l : List Char) : Bool :=
  (!prevW && (phoneTen l || phoneGroup l)) ||
  (prevW &&
    (match l with
     | '+' :: r => phoneGroup r
     | _ => false))

def phoneAux : Bool → List Char → Bool
  | _, [] => false
  | prevW, c :: cs => phoneTry prevW (c :: cs) || phoneAux (wordCharB c) cs

/-- Existence of a match of `\b(\+?\d{1,3}[-\s]?)?\d{10}\b`. -/
def phonePresent (l : List Char) : Bool := phoneAux false l

/-- The allowed punctuation set `.,;:-()/&+%` of the special-character check. -/
def allowedPunct : List Char := ['.', ',', ';', ':', '-', '(', ')', '/', '&', '+', '%']

/-- Count of characters that are neither alphanumeric, whitespace,
nor allowed punctuation. -/
def specialCount (l : List Char) : Nat :=
  (l.filter fun c => !(c.isAlphanum || c.isWhitespace || allowedPunct.contains c)).length

/-- `special_ratio < 0.05`, stated exactly over the naturals:
`count / max(len, 1) < 5/100` iff `20 * count < max(len, 1)`. -/
def specialsOk (l : List Char) : Bool := 20 * specialCount l < max l.length 1

/-! Python-level list helpers used by the scoring code. -/

/-- Python `s.strip()` (whitespace at both ends). -/
def trimL (l : List Char) : List Char :=
  ((l.dropWhile Char.isWhitespace).reverse.dropWhile Char.isWhitespace).reverse

/-- Python `s.split(",")` (keeps empty pieces). -/
def splitCommaAux : List Char → List Char → List (List Char)
  | cur, [] => [cur.reverse]
  | cur, c :: cs =>
    if c == ',' then cur.reverse :: splitCommaAux [] cs
    else splitCommaAux (c :: cur) cs

def splitComma (l : List Char) : List (List Char) := splitCommaAux [] l

/-- `[k.strip().lower() for k in extra_keywords.split(",") if k.strip()]`. -/
def parseExtra (e : List Char) : List (List Char) :=
  ((splitComma e).filter fun k => !(trimL k).isEmpty).map
    fun k => (trimL k).map Char.toLower

/-- Lexicographic order on character lists by code point (Python `str` order). -/
def lexLe : List Char → List Char → Bool
  | [], _ => true
  | _ :: _, [] => false
  | a :: as, b :: bs => if a == b then lexLe as bs else decide (a < b)

def insertLex (x : List Char) : List (List Char) → List (List Char)
  | [] => [x]
  | y :: ys => if lexLe x y then x :: y :: ys else y :: insertLex x ys

/-- Python `sorted` on a list of distinct strings. -/
def sortLex : List (List Char) → List (List Char)
  | [] => []
  | x :: xs => insertLex x (sortLex xs)

/-- View a character list as a `String` again (for suggestion texts). -/
def strOf (l : List Char) : String := ⟨l⟩

/-- Order-preserving deduplication, first occurrence wins (the suggestion
clean-up loop in both variants). -/
def pyDedup (l : List String) : List String :=
  l.foldl (fun acc s => if s ∈ acc then acc else acc ++ [s]) []

/-- Convert a table of string keywords into character lists. -/
def kws (l : List String) : List (List Char) := l.map String.toList

/-- Python lower-casing of the text (`text.lower()`, character-wise ASCII). -/
def lowerTx (text : List Char) : List Char := text.map Char.toLower

/-- Does any alias of a section occur in the lower-cased text? -/
def hitsB (tl : List Char) (aliases : List (List Char)) : Bool :=
  aliases.any fun a => isSub a tl

namespace V1

/-- `ROLE_KEYWORDS["General / Fresher"]` of `ai_resume_score_app.py`. -/
def generalWords : List (List Char) := kws
  ["project", "internship", "team", "lead", "communication", "problem solving",
   "python", "excel", "sql", "presentation", "achievement", "award", "certification"]

/-- `ROLE_KEYWORDS` of `ai_resume_score_app.py` (lines 40-69). -/
def roleTable : List (String × List (List Char)) :=
  [("General / Fresher", generalWords),
   ("Data Analyst", kws
     ["excel", "sql", "python", "pandas", "power bi", "tableau", "dax",
      "visualization", "dashboard", "etl", "statistics", "a/b testing",
      "business intelligence", "insights", "kpi", "data cleaning"]),
   ("Business Analyst", kws
     ["requirements", "user stories", "process mapping", "stakeholder", "jira",
      "confluence", "bpmn", "use case", "gap analysis", "brd", "frd",
      "acceptance criteria", "sql", "reporting", "kpi"]),
   ("Digital Marketing", kws
     ["seo", "sem", "google ads", "meta ads", "content", "copywriting",
      "email marketing", "crm", "analytics", "utm", "landing page", "roi",
      "cpc", "ctr", "campaign", "canva"]),
   ("Project Management", kws
     ["pmp", "agile", "scrum", "kanban", "jira", "risk", "stakeholder",
      "timeline", "budget", "milestone", "scope", "resources", "status report",
      "dependencies", "deliverables"]),
   ("UI/UX Design", kws
     ["figma", "wireframe", "prototype", "user research", "usability",
      "interaction design", "ui kit", "persona", "journey map", "design system",
      "accessibility", "heuristics", "visual design"]),
   ("Software Developer", kws
     ["python", "java", "javascript", "react", "node", "api", "microservices",
      "docker", "git", "testing", "ci/cd", "design patterns", "oop",
      "algorithm", "data structures"])]

/-- `ROLE_KEYWORDS.get(target_role, ROLE_KEYWORDS["General / Fresher"])`. -/
def roleWords (r : String) : List (List Char) :=
  ((roleTable.find? fun p => p.1 == r).map Prod.snd).getD generalWords

/-- `ACTION_VERBS` (lines 71-75; note the duplicated entry for designed). -/
def actionVerbs : List (List Char) := kws
  ["led", "built", "created", "developed", "designed", "launched", "optimized",
   "reduced", "increased", "improved", "automated", "migrated", "enhanced",
   "analysed", "analyzed", "implemented", "managed", "delivered", "deployed",
   "streamlined", "orchestrated", "scaled", "designed", "architected", "spearheaded"]

/-- `CERT_WORDS` (lines 77-80). -/
def certWords : List (List Char) := kws
  ["certified", "certificate", "coursera", "udemy", "pl-300", "pmp",
   "six sigma", "itil", "aws", "azure", "gcp", "google analytics", "meta", "hubspot"]

/-- `EDU_WORDS` (lines 82-84). -/
def eduWords : List (List Char) := kws
  ["b.e", "btech", "b.tech", "bsc", "b.sc", "msc", "m.sc", "mca", "bca", "mba",
   "bachelor", "master", "degree", "college", "university"]

/-- `SECTION_HINTS` (lines 86-94). -/
def sectionHints : List (String × List (List Char)) :=
  [("Summary/Objectives", kws ["summary", "objective", "profile"]),
   ("Experience", kws ["experience", "work experience", "professional experience", "employment"]),
   ("Projects", kws ["projects", "project experience"]),
   ("Education", kws ["education", "academics"]),
   ("Skills", kws ["skills", "technical skills"]),
   ("Certifications", kws ["certifications", "certificates", "licenses"]),
   ("Achievements", kws ["awards", "achievements", "accomplishments"])]

/-- Number of detected catalog sections. -/
def structHitCount (text : List Char) : Nat :=
  (sectionHints.filter fun p => hitsB (lowerTx text) p.2).length

/-- Structure sub-score: the per-hit accumulation of `20/len(SECTION_HINTS)`
followed by `round(., 1)` (lines 161-169). -/
def structPts (text : List Char) : ℚ :=
  round1 (sectionHints.foldl
    (fun acc p => if hitsB (lowerTx text) p.2 then acc + 20 / (sectionHints.length : ℚ) else acc)
    0)

/-- The keyword list for this request: the role's keywords, extended with the
parsed extra keywords when the extra string is non-empty (lines 175-177). -/
def usedWords (role : String) (extra : List Char) : List (List Char) :=
  roleWords role ++ (if extra.isEmpty then [] else parseExtra extra)

/-- `found_role = contains_any(tl, role_words)` (line 178). -/
def foundList (text : List Char) (role : String) (extra : List Char) : List (List Char) :=
  (usedWords role extra).filter fun w => isSub w (lowerTx text)

def foundLen (text : List Char) (role : String) (extra : List Char) : Nat :=
  (foundList text role extra).length

/-- `kw_points = min(len(found_role) * (30/12), 30)` (line 179). -/
def kwPtsOf (n : Nat) : ℚ := min ((n : ℚ) * (30 / 12)) 30

def kwPts (text : List Char) (role : String) (extra : List Char) : ℚ :=
  kwPtsOf (foundLen text role extra)

/-- Alphabetically sorted set difference `set(role_words) - set(found_role)`. -/
def missingSorted (text : List Char) (role : String) (extra : List Char) : List (List Char) :=
  sortLex (((usedWords role extra).filter fun w => !(isSub w (lowerTx text))).dedup)

def numsC (text : List Char) : Nat := countNums (lowerTx text)

def actC (text : List Char) : Nat :=
  (actionVerbs.filter fun w => isSub w (lowerTx text)).length

/-- `impact_points = min(10 + min(nums,5)*2 + min(action_uses,5)*1.5, 20)`. -/
def impactPtsOf (nums act : Nat) : ℚ :=
  min (10 + (min nums 5 : ℚ) * 2 + (min act 5 : ℚ) * 1.5) 20

def impactPts (text : List Char) : ℚ := impactPtsOf (numsC text) (actC text)

def eduH (text : List Char) : Nat :=
  (eduWords.filter fun w => isSub w (lowerTx text)).length

def certH (text : List Char) : Nat :=
  (certWords.filter fun w => isSub w (lowerTx text)).length

/-- `edu_points = min(edu_hits*2 + min(cert_hits, 3)*2, 10)`. -/
def eduPtsOf (e c : Nat) : ℚ := min ((e : ℚ) * 2 + (min c 3 : ℚ) * 2) 10

def eduPts (text : List Char) : ℚ := eduPtsOf (eduH text) (certH text)

def emailB (text : List Char) : Bool := emailPresent (lowerTx text)

def phoneB (text : List Char) : Bool := phonePresent (lowerTx text)

def bulletsC (text : List Char) : Nat := countBullets text

def specialsB (text : List Char) : Bool := specialsOk text

/-- ATS sub-score (lines 202-211): email +3, phone +3, bullets ≥ 5 +2,
special-character ratio < 0.05 +2. -/
def atsPtsOf (em ph : Bool) (bu : Nat) (sp : Bool) : ℚ :=
  (if em then 3 else 0) + (if ph then 3 else 0) +
  (if 5 ≤ bu then 2 else 0) + (if sp then 2 else 0)

def atsPts (text : List Char) : ℚ :=
  atsPtsOf (emailB text) (phoneB text) (bulletsC text) (specialsB text)

def wc (text : List Char) : Nat := countWords (lowerTx text)

/-- Formatting score (lines 215-220): 10 inside 350-900 words, otherwise
`max(0, 10 - abs(word_count - 600)/100)`. -/
def fmtPtsOf (w : Nat) : ℚ :=
  if 350 ≤ w ∧ w ≤ 900 then 10 else max 0 (10 - |(w : ℚ) - 600| / 100)

def fmtPts (text : List Char) : ℚ := fmtPtsOf (wc text)

/-- The un-rounded stage sum whose `round(., 1)` is the reported total. -/
def rawSum (text : List Char) (role : String) (extra : List Char) : ℚ :=
  structPts text + kwPts text role extra + impactPts text + eduPts text +
    atsPts text + fmtPts text

def totalQ (text : List Char) (role : String) (extra : List Char) : ℚ :=
  round1 (rawSum text role extra)

/-- Suggestion list in stage order, before dedup/truncation (mirrors the
append sites of `score_resume`). -/
def suggAll (text : List Char) (role : String) (extra : List Char) : List String :=
  ((sectionHints.filter fun p => !(hitsB (lowerTx text) p.2)).map fun p =>
    "Add a clear “" ++ p.1 ++ "” section.")
  ++ (if foundLen text role extra < 8 then
        ["Include more role keywords (target: " ++ role ++ "). Missing examples: " ++
          String.intercalate ", " (((missingSorted text role extra).take 8).map strOf)]
      else [])
  ++ (if numsC text < 3 then ["Quantify achievements (%, ₹, numbers) to show impact."] else [])
  ++ (if actC text < 3 then
        ["Start bullet points with strong action verbs (Led, Built, Improved...)."] else [])
  ++ (if eduH text = 0 then ["Add Education details (degree, college, year)."] else [])
  ++ (if certH text = 0 then
        ["List relevant certifications (PMP, PL-300, Google, Meta, etc.)."] else [])
  ++ (if !(emailB text) then ["Add a professional email address in header."] else [])
  ++ (if !(phoneB text) then ["Add a valid phone number with country code."] else [])
  ++ (if !(350 ≤ wc text ∧ wc text ≤ 900) then
        ["Keep resume concise (1–2 pages; ~600–800 words recommended)."] else [])

def sugg (text : List Char) (role : String) (extra : List Char) : List String :=
  (pyDedup (suggAll text role extra)).take 8

/-- The score/breakdown/suggestions triple of the flat-rate variant. -/
structure Result where
  total : ℚ
  structure_pts : ℚ
  keywords : ℚ
  impact : ℚ
  educerts : ℚ
  ats : ℚ
  formatting : ℚ
  wordCount : Nat
  suggestions : List String

/-- `score_resume` of `ai_resume_score_app.py` (lines 155-237): the breakdown
fields carry the reported, individually `round(., 1)`-ed values. -/
def score (text : List Char) (role : String) (extra : List Char) : Result :=
  { total := totalQ text role extra
    structure_pts := structPts text
    keywords := round1 (kwPts text role extra)
    impact := round1 (impactPts text)
    educerts := round1 (eduPts text)
    ats := round1 (atsPts text)
    formatting := round1 (fmtPts text)
    wordCount := wc text
    suggestions := sugg text role extra }

end V1

namespace V2

/-- `ROLE_KEYWORDS["General / Fresher"]` of `ai_resume_score_app_v2.py`. -/
def generalWords : List (List Char) := kws
  ["project", "internship", "team", "lead", "communication", "problem solving",
   "python", "excel", "sql", "presentation", "achievement", "award", "certification"]

/-- `ROLE_KEYWORDS` of `ai_resume_score_app_v2.py` (lines 47-54). -/
def roleTable : List (String × List (List Char)) :=
  [("Data Analyst", kws
     ["excel", "sql", "python", "pandas", "power bi", "tableau", "dax",
      "visualization", "dashboard", "etl", "statistics", "a/b testing",
      "business intelligence", "insights", "kpi", "data cleaning",
      "data model", "storytelling"]),
   ("Business Analyst", kws
     ["requirements", "user stories", "process mapping", "stakeholder", "jira",
      "confluence", "bpmn", "use case", "gap analysis", "brd", "frd",
      "acceptance criteria", "sql", "reporting", "kpi", "as-is", "to-be", "roadmap"]),
   ("Digital Marketing", kws
     ["seo", "sem", "google ads", "meta ads", "content", "copywriting",
      "email marketing", "crm", "analytics", "utm", "landing page", "roi",
      "cpc", "ctr", "campaign", "canva", "keyword research", "remarketing"]),
   ("Project Management", kws
     ["pmp", "agile", "scrum", "kanban", "jira", "risk", "stakeholder",
      "timeline", "budget", "milestone", "scope", "resources", "status report",
      "dependencies", "deliverables", "burndown", "retrospective"]),
   ("UI/UX Design", kws
     ["figma", "wireframe", "prototype", "user research", "usability",
      "interaction design", "ui kit", "persona", "journey map", "design system",
      "accessibility", "heuristics", "visual design", "hifi", "lofi"]),
   ("General / Fresher", generalWords)]

def roleWords (r : String) : List (List Char) :=
  ((roleTable.find? fun p => p.1 == r).map Prod.snd).getD generalWords

/-- `ACTION_VERBS` of the v2 file (lines 56-60). -/
def actionVerbs : List (List Char) := kws
  ["led", "built", "created", "developed", "designed", "launched", "optimized",
   "reduced", "increased", "improved", "automated", "migrated", "enhanced",
   "analyzed", "implemented", "managed", "delivered", "deployed", "streamlined",
   "orchestrated", "scaled", "architected", "spearheaded", "boosted", "transformed"]

/-- `CERT_WORDS` of the v2 file (line 62). -/
def certWords : List (List Char) := kws
  ["certified", "certificate", "pl-300", "pmp", "six sigma", "itil", "aws",
   "azure", "gcp", "google analytics", "meta", "hubspot", "scrum"]

/-- `EDU_WORDS` of the v2 file (line 63). -/
def eduWords : List (List Char) := kws
  ["b.e", "btech", "b.tech", "bsc", "b.sc", "msc", "m.sc", "mca", "bca", "mba",
   "bachelor", "master", "degree", "college", "university"]

/-- The section catalog written inline in `score_resume` (lines 135-141). -/
def sectionHints : List (String × List (List Char)) :=
  [("Summary/Objectives", kws ["summary", "objective", "profile"]),
   ("Experience", kws ["experience", "work experience", "professional experience", "employment"]),
   ("Education", kws ["education", "academics", "university", "college"]),
   ("Skills", kws ["skills", "technical skills"]),
   ("Certifications", kws ["certifications", "licenses", "certificates"])]

/-- The guard of the JD branch: `if jd_text and len(jd_text.split()) > 20`. -/
def jdGate (jd : List Char) : Bool := !jd.isEmpty && 20 < countWords jd

/-- `jd_points = min(35.0, round(sim * 35.0, 1))` inside the guard, else 0.
The similarity value returned by the external vectorizer is a parameter. -/
def jdPtsOf (gate : Bool) (sim : ℚ) : ℚ :=
  if gate then min 35 (round1 (sim * 35)) else 0

def jdPts (jd : List Char) (sim : ℚ) : ℚ := jdPtsOf (jdGate jd) sim

def foundList (text : List Char) (role : String) : List (List Char) :=
  (roleWords role).filter fun w => isSub w (lowerTx text)

def foundLen (text : List Char) (role : String) : Nat := (foundList text role).length

/-- `max(len(set(role_words)), 1)`, the coverage denominator. -/
def setSize (role : String) : Nat := max (roleWords role).dedup.length 1

/-- `coverage = len(found) / max(len(set(role_words)), 1)`. -/
def coverageOf (found denom : Nat) : ℚ := (found : ℚ) / (denom : ℚ)

def coverage (text : List Char) (role : String) : ℚ :=
  coverageOf (foundLen text role) (setSize role)

/-- `kw_points = min(25.0, round(coverage*25.0 + min(len(found), 12), 1))`. -/
def kwPtsOf (found denom : Nat) : ℚ :=
  min 25 (round1 (coverageOf found denom * 25 + (min found 12 : ℚ)))

def kwPts (text : List Char) (role : String) : ℚ :=
  kwPtsOf (foundLen text role) (setSize role)

def missingSorted (text : List Char) (role : String) : List (List Char) :=
  sortLex (((roleWords role).filter fun w => !(isSub w (lowerTx text))).dedup)

def structHitCount (text : List Char) : Nat :=
  (sectionHints.filter fun p => hitsB (lowerTx text) p.2).length

/-- Structure sub-score (lines 133-144): `15.0/5.0` per present section,
then `round(., 1)`. -/
def structPts (text : List Char) : ℚ :=
  round1 (sectionHints.foldl
    (fun acc p => if hitsB (lowerTx text) p.2 then acc + 15 / 5 else acc) 0)

def numsC (text : List Char) : Nat := countNums (lowerTx text)

def actC (text : List Char) : Nat :=
  (actionVerbs.filter fun w => isSub w (lowerTx text)).length

/-- `impact = min(15.0, round(min(nums,6)*1.8 + min(actions,6)*0.9, 1))`. -/
def impactPtsOf (nums act : Nat) : ℚ :=
  min 15 (round1 ((min nums 6 : ℚ) * 1.8 + (min act 6 : ℚ) * 0.9))

def impactPts (text : List Char) : ℚ := impactPtsOf (numsC text) (actC text)

def emailB (text : List Char) : Bool := emailPresent (lowerTx text)

def phoneB (text : List Char) : Bool := phonePresent (lowerTx text)

def bulletsC (text : List Char) : Nat := countBullets text

def specialsB (text : List Char) : Bool := specialsOk text

def atsPtsOf (em ph : Bool) (bu : Nat) (sp : Bool) : ℚ :=
  (if em then 3 else 0) + (if ph then 3 else 0) +
  (if 5 ≤ bu then 2 else 0) + (if sp then 2 else 0)

def atsPts (text : List Char) : ℚ :=
  atsPtsOf (emailB text) (phoneB text) (bulletsC text) (specialsB text)

def eduH (text : List Char) : Nat :=
  (eduWords.filter fun w => isSub w (lowerTx text)).length

def certH (text : List Char) : Nat :=
  (certWords.filter fun w => isSub w (lowerTx text)).length

/-- `edu = min(5.0, round((1 if edu_hits>0 else 0)*3 + min(cert_hits,2)*1.0, 1))`. -/
def eduPtsOf (e c : Nat) : ℚ :=
  min 5 (round1 ((if 0 < e then 1 else 0) * 3 + (min c 2 : ℚ) * 1))

def eduPts (text : List Char) : ℚ := eduPtsOf (eduH text) (certH text)

def wc (text : List Char) : Nat := countWords (lowerTx text)

def rawSum (text : List Char) (role : String) (jd : List Char) (sim : ℚ) : ℚ :=
  jdPts jd sim + kwPts text role + structPts text + impactPts text +
    atsPts text + eduPts text

def totalQ (text : List Char) (role : String) (jd : List Char) (sim : ℚ) : ℚ :=
  round1 (rawSum text role jd sim)

/-- Suggestion list in stage order, before dedup/truncation. -/
def suggAll (text : List Char) (role : String) (jd : List Char) (sim : ℚ) : List String :=
  (if jdGate jd then
     (if sim < 1/4 then
        ["Tailor content to the job description—add specific tools/skills from the JD."]
      else [])
   else ["Paste a Job Description to improve match scoring."])
  ++ (if coverage text role < 1/2 then
        ["Add relevant " ++ role ++ " keywords (e.g., " ++
          String.intercalate ", " (((missingSorted text role).take 10).map strOf) ++ ")."]
      else [])
  ++ ((sectionHints.filter fun p => !(hitsB (lowerTx text) p.2)).map fun p =>
        "Add a clear “" ++ p.1 ++ "” section.")
  ++ (if numsC text < 3 then
        ["Quantify achievements with numbers (%, ₹, users, time saved)."] else [])
  ++ (if actC text < 3 then
        ["Start bullets with strong action verbs (Led, Built, Improved...)."] else [])
  ++ (if !(emailB text) then ["Add a professional email in the header."] else [])
  ++ (if !(phoneB text) then ["Add a valid phone number with country code."] else [])
  ++ (if !(specialsB text) then
        ["Avoid heavy graphics/tables; use simple text formatting."] else [])
  ++ (if eduH text = 0 then ["Include Education (degree, college, year)."] else [])
  ++ (if certH text = 0 then
        ["Add relevant certifications (PMP, PL-300, Google/Meta, etc.)."] else [])
  ++ (if !(300 ≤ wc text ∧ wc text ≤ 900) then
        ["Keep resume ~1–2 pages (approx. 600–800 words)."] else [])

def sugg (text : List Char) (role : String) (jd : List Char) (sim : ℚ) : List String :=
  (pyDedup (suggAll text role jd sim)).take 10

/-- The score/breakdown/suggestions triple of the JD variant. -/
structure Result where
  total : ℚ
  jd : ℚ
  keywords : ℚ
  structure_pts : ℚ
  impact : ℚ
  ats : ℚ
  educerts : ℚ
  wordCount : Nat
  suggestions : List String

/-- `score_resume` of `ai_resume_score_app_v2.py` (lines 109-190).  The
similarity computed by `tfidf_similarity` (an external library call) enters
as the parameter `sim`; it is only read inside the JD branch.  The v2
breakdown stores the stage variables directly (no re-rounding). -/
def score (text : List Char) (role : String) (jd : List Char) (sim : ℚ) : Result :=
  { total := totalQ text role jd sim
    jd := jdPts jd sim
    keywords := kwPts text role
    structure_pts := structPts text
    impact := impactPts text
    ats := atsPts text
    educerts := eduPts text
    wordCount := wc text
    suggestions := sugg text role jd sim }

end V2

namespace Tfidf

/-- Modelled from the spec: tokenization for the SimilarityScorer.  The
implementation behind `tfidf_similarity` (sklearn's `TfidfVectorizer`) is
an external library, not part of `src/`; the spec describes "a
term-frequency/inverse-document-frequency vector representation with
English stop-words removed".  Tokens are maximal alphanumeric runs of the
lower-cased document. -/
def splitTokensAux : List Char → List Char → List (List Char)
  | cur, [] => if cur.isEmpty then [] else [cur.reverse]
  | cur, c :: cs =>
    if c.isAlphanum then splitTokensAux (c :: cur) cs
    else if cur.isEmpty then splitTokensAux [] cs
    else cur.reverse :: splitTokensAux [] cs

def splitTokens (l : List Char) : List (List Char) := splitTokensAux [] l

/-- Modelled from the spec: a list of common English stop words (the spec
says "with English stop-words removed"; the library's exact list is not in
`src/`). -/
def stopWords : List (List Char) := kws
  ["a", "about", "above", "after", "again", "all", "am", "an", "and", "any",
   "are", "as", "at", "be", "because", "been", "before", "being", "below",
   "between", "both", "but", "by", "could", "did", "do", "does", "doing",
   "down", "during", "each", "few", "for", "from", "further", "had", "has",
   "have", "having", "he", "her", "here", "hers", "him", "his", "how", "i",
   "if", "in", "into", "is", "it", "its", "just", "me", "more", "most", "my",
   "no", "nor", "not", "now", "of", "off", "on", "once", "only", "or",
   "other", "our", "ours", "out", "over", "own", "same", "she", "should",
   "so", "some", "such", "than", "that", "the", "their", "them", "then",
   "there", "these", "they", "this", "those", "through", "to", "too",
   "under", "until", "up", "very", "was", "we", "were", "what", "when",
   "where", "which", "while", "who", "whom", "why", "will", "with", "you",
   "your"]

/-- Tokens of a document after stop-word removal. -/
def tokens (d : List Char) : List (List Char) :=
  (splitTokens (lowerTx d)).filter fun t => !(stopWords.contains t)

/-- Term frequency of a term in a document. -/
def tf (t : List Char) (d : List Char) : Nat := (tokens d).count t

/-- Document frequency of a term across the two input documents. -/
def df (t : List Char) (a b : List Char) : Nat :=
  (if t ∈ tokens a then 1 else 0) + (if t ∈ tokens b then 1 else 0)

/-- Modelled from the spec: inverse document frequency "across exactly the
two input documents": number of documents over document frequency. -/
def idf (t : List Char) (a b : List Char) : ℚ := 2 / (df t a b : ℚ)

/-- The tf-idf weight of a term in document `d` of the two-document corpus. -/
def weight (d t a b : List Char) : ℚ := (tf t d : ℚ) * idf t a b

/-- The shared vocabulary of the two documents. -/
def vocab (a b : List Char) : List (List Char) := (tokens a ++ tokens b).dedup

/-- Dot product of the two tf-idf vectors over the shared vocabulary. -/
def dotP (a b : List Char) : ℚ :=
  ((vocab a b).map fun t => weight a t a b * weight b t a b).sum

/-- Modelled from the spec: cosine similarity of the two tf-idf vectors.
Degenerate (zero) vectors, on which the real library raises, are given
similarity 0, following the spec's totality statement. -/
noncomputable def sim (a b : List Char) : ℝ :=
  if dotP a a = 0 ∨ dotP b b = 0 then 0
  else (dotP a b : ℝ) / (Real.sqrt (dotP a a) * Real.sqrt (dotP b b))

theorem dotP_self_nonneg (a : List Char) : 0 ≤ dotP a a := by
  unfold dotP
  apply List.sum_nonneg
  intro x hx
  rcases List.mem_map.1 hx with ⟨t, _, ht⟩
  rw [← ht]
  exact mul_self_nonneg _

theorem dotP_self_pos {a : List Char} (h : tokens a ≠ []) : 0 < dotP a a := by
  rcases List.exists_mem_of_ne_nil _ h with ⟨t0, ht0⟩
  have hv : t0 ∈ vocab a a := List.mem_dedup.2 (List.mem_append_left _ ht0)
  have htf : 0 < tf t0 a := List.count_pos_iff.2 ht0
  have hdf : df t0 a a = 2 := by
    unfold df
    rw [if_pos ht0]
  have hw : 0 < weight a t0 a a := by
    unfold weight idf
    rw [hdf]
    have : (0 : ℚ) < (tf t0 a : ℚ) := by exact_mod_cast htf
    nlinarith
  have hmem : weight a t0 a a * weight a t0 a a ∈
      (vocab a a).map fun t => weight a t a a * weight a t a a :=
    List.mem_map_of_mem _ hv
  have hle : weight a t0 a a * weight a t0 a a ≤ dotP a a := by
    unfold dotP
    refine List.single_le_sum ?_ _ hmem
    intro x hx
    rcases List.mem_map.1 hx with ⟨t, _, ht⟩
    rw [← ht]
    exact mul_self_nonneg _
  nlinarith

theorem sim_self {a : List Char} (h : 0 < dotP a a) : sim a a = 1 := by
  unfold sim
  rw [if_neg (by push_neg; exact ⟨ne_of_gt h, ne_of_gt h⟩)]
  have hR : (0 : ℝ) < (dotP a a : ℝ) := by exact_mod_cast h
  rw [Real.mul_self_sqrt (le_of_lt hR)]
  exact div_self (ne_of_gt hR)

end Tfidf

namespace Store

/-!
A small object-store model for the frame claim: the role-keyword table maps
role names to addresses of list cells; `prepV1` models lines 175-177 of
`ai_resume_score_app.py` (`.get` returns a reference, `.copy()` allocates a
fresh cell, `+=` mutates the addressed cell in place), `prepV2` models line
125 of `ai_resume_score_app_v2.py` (`.get` only, no copy, no mutation).
-/

/-- Read the list stored at an address. -/
def readCell (h : List (List String)) (a : Nat) : List String := h.getD a []

/-- `dict.get(role, default)` at the address level. -/
def getAddr (t : List (String × Nat)) (r : String) (dflt : Nat) : Nat :=
  ((t.find? fun p => p.1 == r).map Prod.snd).getD dflt

/-- Address of the `"General / Fresher"` entry, the `.get` default. -/
def generalAddr (t : List (String × Nat)) : Nat := getAddr t "General / Fresher" 0

/-- The keyword list the table currently yields for a role. -/
def readRole (h : List (List String)) (t : List (String × Nat)) (r : String) : List String :=
  readCell h (getAddr t r (generalAddr t))

/-- `role_words = ROLE_KEYWORDS.get(target_role, ...).copy()` followed by
`role_words += [...]` when extra keywords are supplied: allocate a fresh
cell with a copy of the role's list, then extend that fresh cell in place.
Returns the new store and the address of the request's keyword list. -/
def prepV1 (h : List (List String)) (t : List (String × Nat)) (role : String)
    (extra : List Char) : List (List String) × Nat :=
  let a := getAddr t role (generalAddr t)
  let base := readCell h a
  let h1 := h ++ [base]
  let b := h.length
  let h2 := if extra.isEmpty then h1 else h1.set b (base ++ (parseExtra extra).map strOf)
  (h2, b)

/-- `role_words = ROLE_KEYWORDS.get(role, ...)` in the v2 file: the reference
is read and never written, so the store is returned unchanged. -/
def prepV2 (h : List (List String)) (t : List (String × Nat)) (role : String) :
    List (List String) × Nat :=
  (h, getAddr t role (generalAddr t))

theorem getAddr_lt {h : List (List String)} {t : List (String × Nat)}
    (hv : ∀ p ∈ t, p.2 < h.length)
    (hg : ∃ p ∈ t, p.1 = "General / Fresher") (r : String) :
    getAddr t r (generalAddr t) < h.length := by
  have hgen : generalAddr t < h.length := by
    unfold generalAddr getAddr
    rcases hg with ⟨p, hp, hpn⟩
    have : (t.find? fun q => q.1 == "General / Fresher").isSome := by
      rw [List.find?_isSome]
      exact ⟨p, hp, by simp [hpn]⟩
    rcases Option.isSome_iff_exists.1 this with ⟨q, hq⟩
    have hqt : q ∈ t := List.mem_of_find?_eq_some hq
    rw [hq]
    exact hv q hqt
  unfold getAddr
  cases hfind : t.find? fun p => p.1 == r with
  | none => simpa [hfind] using hgen
  | some q =>
    have hqt : q ∈ t := List.mem_of_find?_eq_some hfind
    simpa [hfind] using hv q hqt

end Store

/-! Shared helper lemmas. -/

theorem foldl_share {β : Type} (g : β → Bool) (c : ℚ) (L : List β) (a : ℚ) :
    L.foldl (fun acc p => if g p then acc + c else acc) a
      = a + ((L.filter g).length : ℚ) * c := by
  induction L generalizing a with
  | nil => simp
  | cons x xs ih =>
    by_cases hx : g x = true
    · rw [List.foldl_cons, if_pos hx, ih, List.filter_cons_of_pos hx]
      simp only [List.length_cons]
      push_cast
      ring
    · rw [List.foldl_cons, if_neg hx, ih, List.filter_cons_of_neg (by simpa using hx)]

theorem structPts_eq_V1 (text : List Char) :
    V1.structPts text = round1 ((V1.structHitCount text : ℚ) * (20 / 7)) := by
  unfold V1.structPts V1.structHitCount
  rw [foldl_share]
  norm_num [V1.sectionHints]

theorem structPts_eq_V2 (text : List Char) :
    V2.structPts text = round1 ((V2.structHitCount text : ℚ) * (15 / 5)) := by
  unfold V2.structPts V2.structHitCount
  rw [foldl_share]
  norm_num

theorem structHitCount_le_V1 (text : List Char) : V1.structHitCount text ≤ 7 :=
  le_trans (List.length_filter_le _ _) (by rfl)

theorem structHitCount_le_V2 (text : List Char) : V2.structHitCount text ≤ 5 :=
  le_trans (List.length_filter_le _ _) (by rfl)

theorem lowerTx_append (a b : List Char) :
    lowerTx (a ++ b) = lowerTx a ++ lowerTx b := List.map_append _ a b

theorem foundLen_mono_V1 (text ext : List Char) (role : String) (extra : List Char) :
    V1.foundLen text role extra ≤ V1.foundLen (text ++ ext) role extra := by
  unfold V1.foundLen V1.foundList
  apply length_filter_mono
  intro w hw
  rw [lowerTx_append]
  exact isSub_append _ hw

theorem foundLen_mono_V2 (text ext : List Char) (role : String) :
    V2.foundLen text role ≤ V2.foundLen (text ++ ext) role := by
  unfold V2.foundLen V2.foundList
  apply length_filter_mono
  intro w hw
  rw [lowerTx_append]
  exact isSub_append _ hw

/-- A rational with (at most) one decimal place. -/
def Tenth (q : ℚ) : Prop := ∃ m : ℤ, q = (m : ℚ) / 10

theorem tenth_int (n : ℤ) : Tenth (n : ℚ) := ⟨10 * n, by push_cast; ring⟩

theorem tenth_zero : Tenth 0 := ⟨0, by norm_num⟩

theorem tenth_round1 (q : ℚ) : Tenth (round1 q) := round1_eq_div q

theorem Tenth.add {a b : ℚ} (ha : Tenth a) (hb : Tenth b) : Tenth (a + b) := by
  rcases ha with ⟨m, hm⟩
  rcases hb with ⟨n, hn⟩
  exact ⟨m + n, by rw [hm, hn]; push_cast; ring⟩

theorem Tenth.min {a b : ℚ} (ha : Tenth a) (hb : Tenth b) : Tenth (min a b) := by
  rcases min_choice a b with h | h <;> rw [h] <;> assumption

theorem round1_of_tenth {q : ℚ} (h : Tenth q) : round1 q = q := by
  rcases h with ⟨m, hm⟩
  rw [hm, round1_tenth]

theorem tenth_ite (c : Prop) [Decidable c] {x : ℚ} (hx : Tenth x) :
    Tenth (if c then x else 0) := by
  split_ifs
  · exact hx
  · exact tenth_zero

theorem foldl_dedup_prefix (l : List String) (acc : List String) :
    acc <+: l.foldl (fun acc s => if s ∈ acc then acc else acc ++ [s]) acc := by
  induction l generalizing acc with
  | nil => exact List.prefix_refl acc
  | cons x xs ih =>
    rw [List.foldl_cons]
    refine List.IsPrefix.trans ?_ (ih _)
    split_ifs
    · exact List.prefix_refl acc
    · exact ⟨[x], rfl⟩

theorem pyDedup_cons (x : String) (l : List String) :
    ∃ r, pyDedup (x :: l) = x :: r := by
  unfold pyDedup
  rw [List.foldl_cons]
  have hstep : (if x ∈ ([] : List String) then ([] : List String) else [] ++ [x]) = [x] := by simp
  rw [hstep]
  rcases foldl_dedup_prefix l [x] with ⟨t, ht⟩
  exact ⟨t, by rw [← ht]; rfl⟩

theorem mem_dedup_take_head (x : String) (l : List String) (n : Nat) (hn : 0 < n) :
    x ∈ (pyDedup (x :: l)).take n := by
  rcases pyDedup_cons x l with ⟨r, hr⟩
  rw [hr]
  cases n with
  | zero => omega
  | succ m =>
    rw [List.take_succ_cons]
    exact List.mem_cons_self _ _

/-! Bounds of the individual stage scores. -/

theorem structPts_bounds_V1 (text : List Char) :
    0 ≤ V1.structPts text ∧ V1.structPts text ≤ 20 := by
  rw [structPts_eq_V1]
  constructor
  · exact round1_nonneg (by positivity)
  · have hc : (V1.structHitCount text : ℚ) ≤ 7 := by
      exact_mod_cast structHitCount_le_V1 text
    have : (V1.structHitCount text : ℚ) * (20 / 7) ≤ (20 : ℤ) := by
      push_cast
      nlinarith
    exact round1_le_intCast this

theorem structPts_bounds_V2 (text : List Char) :
    0 ≤ V2.structPts text ∧ V2.structPts text ≤ 15 := by
  rw [structPts_eq_V2]
  constructor
  · exact round1_nonneg (by positivity)
  · have hc : (V2.structHitCount text : ℚ) ≤ 5 := by
      exact_mod_cast structHitCount_le_V2 text
    have : (V2.structHitCount text : ℚ) * (15 / 5) ≤ (15 : ℤ) := by
      push_cast
      nlinarith
    exact round1_le_intCast this

theorem kwPtsOf_bounds_V1 (n : Nat) : 0 ≤ V1.kwPtsOf n ∧ V1.kwPtsOf n ≤ 30 := by
  unfold V1.kwPtsOf
  constructor
  · exact le_min (by positivity) (by norm_num)
  · exact min_le_right _ _

theorem impactPtsOf_bounds_V1 (n a : Nat) :
    0 ≤ V1.impactPtsOf n a ∧ V1.impactPtsOf n a ≤ 20 := by
  unfold V1.impactPtsOf
  constructor
  · exact le_min (by positivity) (by norm_num)
  · exact min_le_right _ _

theorem eduPtsOf_bounds_V1 (e c : Nat) :
    0 ≤ V1.eduPtsOf e c ∧ V1.eduPtsOf e c ≤ 10 := by
  unfold V1.eduPtsOf
  constructor
  · exact le_min (by positivity) (by norm_num)
  · exact min_le_right _ _

theorem atsPtsOf_bounds (em ph : Bool) (bu : Nat) (sp : Bool) :
    0 ≤ V1.atsPtsOf em ph bu sp ∧ V1.atsPtsOf em ph bu sp ≤ 10 := by
  unfold V1.atsPtsOf
  split_ifs <;> norm_num

theorem atsPtsOf_bounds_V2 (em ph : Bool) (bu : Nat) (sp : Bool) :
    0 ≤ V2.atsPtsOf em ph bu sp ∧ V2.atsPtsOf em ph bu sp ≤ 10 := by
  unfold V2.atsPtsOf
  split_ifs <;> norm_num

theorem fmtPtsOf_bounds (w : Nat) : 0 ≤ V1.fmtPtsOf w ∧ V1.fmtPtsOf w ≤ 10 := by
  unfold V1.fmtPtsOf
  split_ifs
  · norm_num
  · constructor
    · exact le_max_left _ _
    · refine max_le (by norm_num) ?_
      have h1 : 0 ≤ |(w : ℚ) - 600| / 100 := by positivity
      linarith

theorem jdPtsOf_bounds {sim : ℚ} (gate : Bool) (hs : 0 ≤ sim) :
    0 ≤ V2.jdPtsOf gate sim ∧ V2.jdPtsOf gate sim ≤ 35 := by
  unfold V2.jdPtsOf
  split_ifs
  · constructor
    · exact le_min (by norm_num) (round1_nonneg (by positivity))
    · exact min_le_left _ _
  · norm_num

theorem kwPtsOf_bounds_V2 (f d : Nat) : 0 ≤ V2.kwPtsOf f d ∧ V2.kwPtsOf f d ≤ 25 := by
  unfold V2.kwPtsOf V2.coverageOf
  constructor
  · exact le_min (by norm_num) (round1_nonneg (by positivity))
  · exact min_le_left _ _

theorem impactPtsOf_bounds_V2 (n a : Nat) :
    0 ≤ V2.impactPtsOf n a ∧ V2.impactPtsOf n a ≤ 15 := by
  unfold V2.impactPtsOf
  constructor
  · exact le_min (by norm_num) (round1_nonneg (by positivity))
  · exact min_le_left _ _

theorem eduPtsOf_bounds_V2 (e c : Nat) :
    0 ≤ V2.eduPtsOf e c ∧ V2.eduPtsOf e c ≤ 5 := by
  unfold V2.eduPtsOf
  constructor
  · refine le_min (by norm_num) (round1_nonneg ?_)
    split_ifs <;> positivity
  · exact min_le_left _ _

/-! Claim theorems. -/

/-- C6: extending the text (in particular with additional instances of a role
keyword) never decreases the Keywords sub-score, under the flat-rate policy
of the first variant and under the coverage-blend policy of the JD variant. -/
theorem c6_keywords_monotone (text ext : List Char) (role : String) (extra : List Char) :
    V1.kwPts text role extra ≤ V1.kwPts (text ++ ext) role extra ∧
    V2.kwPts text role ≤ V2.kwPts (text ++ ext) role := by
  constructor
  · unfold V1.kwPts V1.kwPtsOf
    have h := foundLen_mono_V1 text ext role extra
    have hq : (V1.foundLen text role extra : ℚ) ≤ (V1.foundLen (text ++ ext) role extra : ℚ) := by
      exact_mod_cast h
    refine min_le_min ?_ le_rfl
    nlinarith
  · unfold V2.kwPts V2.kwPtsOf V2.coverageOf
    have h := foundLen_mono_V2 text ext role
    have hq : (V2.foundLen text role : ℚ) ≤ (V2.foundLen (text ++ ext) role : ℚ) := by
      exact_mod_cast h
    refine min_le_min le_rfl (round1_mono ?_)
    have hd : (0 : ℚ) < (V2.setSize role : ℚ) := by
      have : 1 ≤ V2.setSize role := le_max_right _ _
      exact_mod_cast lt_of_lt_of_le Nat.zero_lt_one this
    have h1 : (V2.foundLen text role : ℚ) / (V2.setSize role : ℚ)
        ≤ (V2.foundLen (text ++ ext) role : ℚ) / (V2.setSize role : ℚ) :=
      (div_le_div_iff_of_pos_right hd).2 hq
    have h2 : min (V2.foundLen text role : ℚ) 12 ≤ min (V2.foundLen (text ++ ext) role : ℚ) 12 :=
      min_le_min hq le_rfl
    nlinarith

/-- C7: the Structure sub-score equals the number of detected catalog
sections times the even per-section share of the section budget (20 points
over seven sections in the flat-rate variant, 15 points over five sections
in the JD variant), rounded to one decimal place. -/
theorem c7_section_share (text : List Char) :
    V1.structPts text = round1 ((V1.structHitCount text : ℚ) * (20 / 7)) ∧
    V2.structPts text = round1 ((V2.structHitCount text : ℚ) * (15 / 5)) :=
  ⟨structPts_eq_V1 text, structPts_eq_V2 text⟩

set_option maxRecDepth 40000 in
theorem roleWords_ne_nil_V1 (role : String) : ∀ w ∈ V1.roleWords role, w ≠ [] := by
  unfold V1.roleWords
  cases hf : V1.roleTable.find? (fun p => p.1 == role) with
  | none =>
    simp only [hf, Option.map_none', Option.getD_none]
    decide
  | some p =>
    have hp : p ∈ V1.roleTable := List.mem_of_find?_eq_some hf
    simp only [hf, Option.map_some', Option.getD_some]
    have hall : ∀ q ∈ V1.roleTable, ∀ w ∈ q.2, w ≠ [] := by decide
    exact hall p hp

set_option maxRecDepth 40000 in
theorem roleWords_ne_nil_V2 (role : String) : ∀ w ∈ V2.roleWords role, w ≠ [] := by
  unfold V2.roleWords
  cases hf : V2.roleTable.find? (fun p => p.1 == role) with
  | none =>
    simp only [hf, Option.map_none', Option.getD_none]
    decide
  | some p =>
    have hp : p ∈ V2.roleTable := List.mem_of_find?_eq_some hf
    simp only [hf, Option.map_some', Option.getD_some]
    have hall : ∀ q ∈ V2.roleTable, ∀ w ∈ q.2, w ≠ [] := by decide
    exact hall p hp

theorem isSub_nil_right {w : List Char} (h : w ≠ []) : isSub w [] = false := by
  cases w with
  | nil => exact absurd rfl h
  | cons c cs => rfl

theorem foundList_nil_V1 (role : String) : V1.foundList [] role [] = [] := by
  unfold V1.foundList V1.usedWords
  rw [List.filter_eq_nil_iff]
  intro w hw
  simp at hw
  have hne : w ≠ [] := roleWords_ne_nil_V1 role w hw
  simp [lowerTx, isSub_nil_right hne]

theorem foundList_nil_V2 (role : String) : V2.foundList [] role = [] := by
  unfold V2.foundList
  rw [List.filter_eq_nil_iff]
  intro w hw
  have hne : w ≠ [] := roleWords_ne_nil_V2 role w hw
  simp [lowerTx, isSub_nil_right hne]

/-- C3 (amended): on the empty string, for every role, both variants return
word count 0, zero keyword points and zero structure points; but the Impact
sub-score is its base 10 in the flat-rate variant (0 in the blend variant),
the ATS sub-score is 2 (the special-character check passes trivially), and
the flat-rate Formatting score is 4 (the distance penalty from 600 words),
giving totals 16 and 2 rather than an all-zero breakdown. -/
theorem c3_empty_text (role : String) (sim : ℚ) :
    (V1.score [] role []).wordCount = 0 ∧
    (V1.score [] role []).structure_pts = 0 ∧
    (V1.score [] role []).keywords = 0 ∧
    (V1.score [] role []).impact = 10 ∧
    (V1.score [] role []).educerts = 0 ∧
    (V1.score [] role []).ats = 2 ∧
    (V1.score [] role []).formatting = 4 ∧
    (V1.score [] role []).total = 16 ∧
    (V2.score [] role [] sim).wordCount = 0 ∧
    (V2.score [] role [] sim).jd = 0 ∧
    (V2.score [] role [] sim).keywords = 0 ∧
    (V2.score [] role [] sim).structure_pts = 0 ∧
    (V2.score [] role [] sim).impact = 0 ∧
    (V2.score [] role [] sim).ats = 2 ∧
    (V2.score [] role [] sim).educerts = 0 ∧
    (V2.score [] role [] sim).total = 2 := by
  have h1 : V1.foundLen [] role [] = 0 := by
    unfold V1.foundLen
    rw [foundList_nil_V1]
    rfl
  have hk1 : V1.kwPts [] role [] = 0 := by
    unfold V1.kwPts
    rw [h1]
    norm_num [V1.kwPtsOf]
  have hs1 : V1.structPts [] = 0 := by
    rw [structPts_eq_V1, show V1.structHitCount [] = 0 from by decide]
    norm_num [round1_zero]
  have hi1 : V1.impactPts [] = 10 := by
    unfold V1.impactPts
    rw [show V1.numsC [] = 0 from by decide, show V1.actC [] = 0 from by decide]
    norm_num [V1.impactPtsOf]
  have he1 : V1.eduPts [] = 0 := by
    unfold V1.eduPts
    rw [show V1.eduH [] = 0 from by decide, show V1.certH [] = 0 from by decide]
    norm_num [V1.eduPtsOf]
  have ha1 : V1.atsPts [] = 2 := by
    unfold V1.atsPts
    rw [show V1.emailB [] = false from by decide, show V1.phoneB [] = false from by decide,
      show V1.bulletsC [] = 0 from by decide, show V1.specialsB [] = true from by decide]
    norm_num [V1.atsPtsOf]
  have hf1 : V1.fmtPts [] = 4 := by
    unfold V1.fmtPts
    rw [show V1.wc [] = 0 from by decide]
    norm_num [V1.fmtPtsOf, abs]
  have ht1 : V1.totalQ [] role [] = 16 := by
    unfold V1.totalQ V1.rawSum
    rw [hs1, hk1, hi1, he1, ha1, hf1]
    have : (0 : ℚ) + 0 + 10 + 0 + 2 + 4 = ((16 : ℤ) : ℚ) := by norm_num
    rw [this, round1_intCast]
    norm_num
  have h2 : V2.foundLen [] role = 0 := by
    unfold V2.foundLen
    rw [foundList_nil_V2]
    rfl
  have hk2 : V2.kwPts [] role = 0 := by
    unfold V2.kwPts
    rw [h2]
    norm_num [V2.kwPtsOf, V2.coverageOf, round1_zero]
  have hj2 : V2.jdPts [] sim = 0 := by
    unfold V2.jdPts
    rw [show V2.jdGate [] = false from rfl]
    simp [V2.jdPtsOf]
  have hst2 : V2.structPts [] = 0 := by
    rw [structPts_eq_V2, show V2.structHitCount [] = 0 from by decide]
    norm_num [round1_zero]
  have hi2 : V2.impactPts [] = 0 := by
    unfold V2.impactPts
    rw [show V2.numsC [] = 0 from by decide, show V2.actC [] = 0 from by decide]
    norm_num [V2.impactPtsOf, round1_zero]
  have ha2 : V2.atsPts [] = 2 := by
    unfold V2.atsPts
    rw [show V2.emailB [] = false from by decide, show V2.phoneB [] = false from by decide,
      show V2.bulletsC [] = 0 from by decide, show V2.specialsB [] = true from by decide]
    norm_num [V2.atsPtsOf]
  have he2 : V2.eduPts [] = 0 := by
    unfold V2.eduPts
    rw [show V2.eduH [] = 0 from by decide, show V2.certH [] = 0 from by decide]
    norm_num [V2.eduPtsOf, round1_zero]
  have ht2 : V2.totalQ [] role [] sim = 2 := by
    unfold V2.totalQ V2.rawSum
    rw [hj2, hk2, hst2, hi2, ha2, he2]
    have : (0 : ℚ) + 0 + 0 + 0 + 2 + 0 = ((2 : ℤ) : ℚ) := by norm_num
    rw [this, round1_intCast]
    norm_num
  refine ⟨?_, ?_, ?_, ?_, ?_, ?_, ?_, ?_, ?_, ?_, ?_, ?_, ?_, ?_, ?_, ?_⟩
  · simp only [V1.score]
    decide
  · simpa only [V1.score] using hs1
  · simp only [V1.score]
    rw [hk1, round1_zero]
  · simp only [V1.score]
    rw [hi1]
    simpa using round1_intCast 10
  · simp only [V1.score]
    rw [he1, round1_zero]
  · simp only [V1.score]
    rw [ha1]
    simpa using round1_intCast 2
  · simp only [V1.score]
    rw [hf1]
    simpa using round1_intCast 4
  · simpa only [V1.score] using ht1
  · simp only [V2.score]
    decide
  · simpa only [V2.score] using hj2
  · simpa only [V2.score] using hk2
  · simpa only [V2.score] using hst2
  · simpa only [V2.score] using hi2
  · simpa only [V2.score] using ha2
  · simpa only [V2.score] using he2
  · simpa only [V2.score] using ht2

/-- C3 (counterexample): at the empty string the claim's "zero impact and
ATS points" fails: the flat-rate Impact sub-score is its base 10 and the
ATS sub-score of the JD variant is 2, because the special-character check
passes on empty text. -/
theorem c3_counterexample :
    (V2.score [] "Data Analyst" [] 0).ats = 2 ∧
    (V1.score [] "Data Analyst" []).impact = 10 ∧
    ¬((V2.score [] "Data Analyst" [] 0).ats = 0 ∧
      (V1.score [] "Data Analyst" []).impact = 0) := by
  have ha : (V2.score [] "Data Analyst" [] 0).ats = 2 := by
    simp only [V2.score]
    unfold V2.atsPts
    rw [show V2.emailB [] = false from by decide, show V2.phoneB [] = false from by decide,
      show V2.bulletsC [] = 0 from by decide, show V2.specialsB [] = true from by decide]
    norm_num [V2.atsPtsOf]
  have hi : (V1.score [] "Data Analyst" []).impact = 10 := by
    simp only [V1.score]
    unfold V1.impactPts
    rw [show V1.numsC [] = 0 from by decide, show V1.actC [] = 0 from by decide]
    have : V1.impactPtsOf 0 0 = ((10 : ℤ) : ℚ) := by norm_num [V1.impactPtsOf]
    rw [this, round1_intCast]
    norm_num
  refine ⟨ha, hi, ?_⟩
  rintro ⟨hz, _⟩
  rw [ha] at hz
  norm_num at hz

/-- C4 (amended): the found count is a membership count with respect to the
text but a multiplicity count with respect to the keyword list: supplying
extra keywords appends them to the role's list and every appended entry
that occurs in the text is counted again, so an extra keyword that is
already in the role's keyword set and present in the text raises the found
count by one (and can raise the Keywords sub-score). -/
theorem c4_extra_keywords_additive (text : List Char) (role : String) (e : List Char)
    (h : e.isEmpty = false) :
    (V1.foundLen text role e =
      V1.foundLen text role [] +
        ((parseExtra e).filter fun k => isSub k (lowerTx text)).length) ∧
    (∀ kw, parseExtra e = [kw] → isSub kw (lowerTx text) = true →
      V1.foundLen text role e = V1.foundLen text role [] + 1) := by
  have hmain : V1.foundLen text role e =
      V1.foundLen text role [] +
        ((parseExtra e).filter fun k => isSub k (lowerTx text)).length := by
    unfold V1.foundLen V1.foundList V1.usedWords
    simp [h, List.filter_append]
  refine ⟨hmain, ?_⟩
  intro kw hkw hsub
  rw [hmain, hkw]
  simp [hsub]

set_option maxRecDepth 40000 in
/-- C4 (witness): at text `"sql"`, role `"Data Analyst"` and the duplicate
extra keyword `"sql"`, the found count goes up by one. -/
theorem c4_extra_keywords_additive_witness :
    ("sql".toList : List Char).isEmpty = false ∧
    V1.foundLen ("sql".toList) "Data Analyst" ("sql".toList) =
      V1.foundLen ("sql".toList) "Data Analyst" [] + 1 :=
  ⟨by decide,
   (c4_extra_keywords_additive ("sql".toList) "Data Analyst" ("sql".toList) (by decide)).2
     ("sql".toList) (by decide) (by decide)⟩

set_option maxRecDepth 40000 in
/-- C4 (counterexample): supplying the extra keyword `"sql"`, which is
already in the Data Analyst keyword set, on the text `"sql"` changes the
found count from 1 to 2 and the Keywords sub-score from 2.5 to 5, refuting
the claim that duplicates in the keyword list are not double-counted. -/
theorem c4_counterexample :
    V1.foundLen ("sql".toList) "Data Analyst" ("sql".toList) = 2 ∧
    V1.foundLen ("sql".toList) "Data Analyst" [] = 1 ∧
    (V1.score ("sql".toList) "Data Analyst" ("sql".toList)).keywords = 5 ∧
    (V1.score ("sql".toList) "Data Analyst" []).keywords = 5 / 2 ∧
    V1.foundLen ("sql".toList) "Data Analyst" ("sql".toList) ≠
      V1.foundLen ("sql".toList) "Data Analyst" [] := by
  have hf2 : V1.foundLen ("sql".toList) "Data Analyst" ("sql".toList) = 2 := by decide
  have hf1 : V1.foundLen ("sql".toList) "Data Analyst" [] = 1 := by decide
  refine ⟨hf2, hf1, ?_, ?_, ?_⟩
  · simp only [V1.score]
    unfold V1.kwPts
    rw [hf2]
    have : V1.kwPtsOf 2 = ((5 : ℤ) : ℚ) := by norm_num [V1.kwPtsOf]
    rw [this, round1_intCast]
    norm_num
  · simp only [V1.score]
    unfold V1.kwPts
    rw [hf1]
    have : V1.kwPtsOf 1 = (((25 : ℤ) : ℚ)) / 10 := by norm_num [V1.kwPtsOf]
    rw [this, round1_tenth]
    norm_num
  · rw [hf2, hf1]
    omega

/-! One-decimal-place structure of the stage scores (for claim C5). -/

theorem tenth_natCast (n : ℕ) : Tenth (n : ℚ) := ⟨10 * n, by push_cast; ring⟩

theorem tenth_kwPts_V1 (n : Nat) : Tenth (V1.kwPtsOf n) := by
  unfold V1.kwPtsOf
  exact Tenth.min ⟨25 * n, by push_cast; ring⟩ ⟨300, by norm_num⟩

theorem tenth_impactPts_V1 (n a : Nat) : Tenth (V1.impactPtsOf n a) := by
  unfold V1.impactPtsOf
  refine Tenth.min ⟨100 + 20 * (min n 5 : ℕ) + 15 * (min a 5 : ℕ), ?_⟩ ⟨200, by norm_num⟩
  push_cast [Nat.cast_min]
  ring

theorem tenth_eduPts_V1 (e c : Nat) : Tenth (V1.eduPtsOf e c) := by
  unfold V1.eduPtsOf
  refine Tenth.min ⟨20 * e + 20 * (min c 3 : ℕ), ?_⟩ ⟨100, by norm_num⟩
  push_cast [Nat.cast_min]
  ring

theorem tenth_atsPts_V1 (em ph : Bool) (bu : Nat) (sp : Bool) :
    Tenth (V1.atsPtsOf em ph bu sp) := by
  unfold V1.atsPtsOf
  exact ((((tenth_ite _ ⟨30, by norm_num⟩).add (tenth_ite _ ⟨30, by norm_num⟩)).add
    (tenth_ite _ ⟨20, by norm_num⟩)).add (tenth_ite _ ⟨20, by norm_num⟩))

theorem tenth_structPts_V1 (text : List Char) : Tenth (V1.structPts text) := by
  unfold V1.structPts
  exact tenth_round1 _

theorem tenth_jdPts_V2 (gate : Bool) (sim : ℚ) : Tenth (V2.jdPtsOf gate sim) := by
  unfold V2.jdPtsOf
  split_ifs
  · exact Tenth.min ⟨350, by norm_num⟩ (tenth_round1 _)
  · exact tenth_zero

theorem tenth_kwPts_V2 (f d : Nat) : Tenth (V2.kwPtsOf f d) :=
  Tenth.min ⟨250, by norm_num⟩ (tenth_round1 _)

theorem tenth_impactPts_V2 (n a : Nat) : Tenth (V2.impactPtsOf n a) :=
  Tenth.min ⟨150, by norm_num⟩ (tenth_round1 _)

theorem tenth_eduPts_V2 (e c : Nat) : Tenth (V2.eduPtsOf e c) :=
  Tenth.min ⟨50, by norm_num⟩ (tenth_round1 _)

theorem tenth_atsPts_V2 (em ph : Bool) (bu : Nat) (sp : Bool) :
    Tenth (V2.atsPtsOf em ph bu sp) := by
  unfold V2.atsPtsOf
  exact ((((tenth_ite _ ⟨30, by norm_num⟩).add (tenth_ite _ ⟨30, by norm_num⟩)).add
    (tenth_ite _ ⟨20, by norm_num⟩)).add (tenth_ite _ ⟨20, by norm_num⟩))

theorem tenth_structPts_V2 (text : List Char) : Tenth (V2.structPts text) := by
  unfold V2.structPts
  exact tenth_round1 _

/-- C5 (amended): in the JD variant the total always equals the exact sum of
the reported breakdown sub-scores; in the flat-rate variant it does so
whenever the raw Formatting value has at most one decimal place (in
particular whenever the word count lies in 350-900, where Formatting is 10).
Outside that case the total is the rounding of the un-rounded stage sum and
can differ from the sum of the reported entries (see the counterexample).
No independent cap is applied to either total. -/
theorem c5_total_is_sum (text : List Char) (role : String) (jd : List Char)
    (sim : ℚ) (extra : List Char) (hfmt : Tenth (V1.fmtPts text)) :
    ((V2.score text role jd sim).total =
      (V2.score text role jd sim).jd + (V2.score text role jd sim).keywords +
      (V2.score text role jd sim).structure_pts + (V2.score text role jd sim).impact +
      (V2.score text role jd sim).ats + (V2.score text role jd sim).educerts) ∧
    ((V1.score text role extra).total =
      (V1.score text role extra).structure_pts + (V1.score text role extra).keywords +
      (V1.score text role extra).impact + (V1.score text role extra).educerts +
      (V1.score text role extra).ats + (V1.score text role extra).formatting) := by
  constructor
  · simp only [V2.score]
    unfold V2.totalQ V2.rawSum
    have hj : Tenth (V2.jdPts jd sim) := tenth_jdPts_V2 _ _
    have hk : Tenth (V2.kwPts text role) := tenth_kwPts_V2 _ _
    have hst : Tenth (V2.structPts text) := tenth_structPts_V2 text
    have hi : Tenth (V2.impactPts text) := tenth_impactPts_V2 _ _
    have ha : Tenth (V2.atsPts text) := tenth_atsPts_V2 _ _ _ _
    have he : Tenth (V2.eduPts text) := tenth_eduPts_V2 _ _
    exact round1_of_tenth ((((hj.add hk).add hst).add hi).add ha |>.add he)
  · simp only [V1.score]
    unfold V1.totalQ V1.rawSum
    have hst : Tenth (V1.structPts text) := tenth_structPts_V1 text
    have hk : Tenth (V1.kwPts text role extra) := tenth_kwPts_V1 _
    have hi : Tenth (V1.impactPts text) := tenth_impactPts_V1 _ _
    have he : Tenth (V1.eduPts text) := tenth_eduPts_V1 _ _
    have ha : Tenth (V1.atsPts text) := tenth_atsPts_V1 _ _ _ _
    rw [round1_of_tenth ((((hst.add hk).add hi).add he).add ha |>.add hfmt),
      round1_of_tenth hk, round1_of_tenth hi, round1_of_tenth he, round1_of_tenth ha,
      round1_of_tenth hfmt]

/-- C5 (witness): a concrete in-range call of both variants where the total
is the exact sum of the breakdown entries. -/
theorem c5_total_is_sum_witness :
    Tenth (V1.fmtPts []) ∧
    ((V1.score [] "Data Analyst" []).total =
      (V1.score [] "Data Analyst" []).structure_pts + (V1.score [] "Data Analyst" []).keywords +
      (V1.score [] "Data Analyst" []).impact + (V1.score [] "Data Analyst" []).educerts +
      (V1.score [] "Data Analyst" []).ats + (V1.score [] "Data Analyst" []).formatting) := by
  have hfmt : Tenth (V1.fmtPts []) := by
    unfold V1.fmtPts
    rw [show V1.wc [] = 0 from by decide]
    exact ⟨40, by norm_num [V1.fmtPtsOf, abs]⟩
  exact ⟨hfmt, (c5_total_is_sum [] "Data Analyst" [] 0 [] hfmt).2⟩

def ledText : List Char := "led zz zz zz zz".toList

set_option maxRecDepth 40000 in
/-- C5 (counterexample): on the five-word text `"led zz zz zz zz"` at role
Data Analyst, the flat-rate total is 17.6 while the breakdown entries sum
to 17.5: the raw Formatting value 4.05 is rounded independently in the
breakdown, so the total is not the exact sum of the reported sub-scores. -/
theorem c5_counterexample :
    (V1.score ledText "Data Analyst" []).total = 88 / 5 ∧
    (V1.score ledText "Data Analyst" []).structure_pts +
      (V1.score ledText "Data Analyst" []).keywords +
      (V1.score ledText "Data Analyst" []).impact +
      (V1.score ledText "Data Analyst" []).educerts +
      (V1.score ledText "Data Analyst" []).ats +
      (V1.score ledText "Data Analyst" []).formatting = 35 / 2 ∧
    (88 : ℚ) / 5 ≠ 35 / 2 := by
  have hs : V1.structPts ledText = 0 := by
    rw [structPts_eq_V1, show V1.structHitCount ledText = 0 from by decide]
    norm_num [round1_zero]
  have hk : V1.kwPts ledText "Data Analyst" [] = 0 := by
    unfold V1.kwPts
    rw [show V1.foundLen ledText "Data Analyst" [] = 0 from by decide]
    norm_num [V1.kwPtsOf]
  have hi : V1.impactPts ledText = 23 / 2 := by
    unfold V1.impactPts
    rw [show V1.numsC ledText = 0 from by decide, show V1.actC ledText = 1 from by decide]
    norm_num [V1.impactPtsOf]
  have he : V1.eduPts ledText = 0 := by
    unfold V1.eduPts
    rw [show V1.eduH ledText = 0 from by decide, show V1.certH ledText = 0 from by decide]
    norm_num [V1.eduPtsOf]
  have ha : V1.atsPts ledText = 2 := by
    unfold V1.atsPts
    rw [show V1.emailB ledText = false from by decide,
      show V1.phoneB ledText = false from by decide,
      show V1.bulletsC ledText = 0 from by decide,
      show V1.specialsB ledText = true from by decide]
    norm_num [V1.atsPtsOf]
  have hf : V1.fmtPts ledText = 405 / 100 := by
    unfold V1.fmtPts
    rw [show V1.wc ledText = 5 from by decide]
    norm_num [V1.fmtPtsOf, abs]
  refine ⟨?_, ?_, by norm_num⟩
  · simp only [V1.score]
    unfold V1.totalQ V1.rawSum
    rw [hs, hk, hi, he, ha, hf]
    have : (0 : ℚ) + 0 + 23 / 2 + 0 + 2 + 405 / 100 = 1755 / 100 := by norm_num
    rw [this]
    norm_num [round1, rhe]
  · simp only [V1.score]
    rw [hs, hk, hi, he, ha, hf]
    rw [show round1 (0 : ℚ) = 0 from round1_zero,
      show round1 ((23 : ℚ) / 2) = 23 / 2 from by norm_num [round1, rhe],
      show round1 ((2 : ℚ)) = 2 from by simpa using round1_intCast 2,
      show round1 ((405 : ℚ) / 100) = 4 from by norm_num [round1, rhe]]
    norm_num

theorem round1_bounds_of {q : ℚ} {n : ℤ} (h0 : 0 ≤ q) (h1 : q ≤ (n : ℚ)) :
    0 ≤ round1 q ∧ round1 q ≤ (n : ℚ) :=
  ⟨round1_nonneg h0, round1_le_intCast h1⟩

/-- C1 (amended): every sub-score of the returned breakdown lies in
`[0, band_max]` for its category, and the total lies between 0 and the sum
of the category band maxima; that sum is 100 in the flat-rate variant
(20+30+20+10+10+10) but 105 in the JD variant (35+25+15+15+10+5), and the
JD-variant total can actually exceed 100 (see the counterexample). -/
theorem c1_score_bounds :
    (∀ (text : List Char) (role : String) (extra : List Char),
      0 ≤ (V1.score text role extra).total ∧ (V1.score text role extra).total ≤ 100 ∧
      0 ≤ (V1.score text role extra).structure_pts ∧
        (V1.score text role extra).structure_pts ≤ 20 ∧
      0 ≤ (V1.score text role extra).keywords ∧ (V1.score text role extra).keywords ≤ 30 ∧
      0 ≤ (V1.score text role extra).impact ∧ (V1.score text role extra).impact ≤ 20 ∧
      0 ≤ (V1.score text role extra).educerts ∧ (V1.score text role extra).educerts ≤ 10 ∧
      0 ≤ (V1.score text role extra).ats ∧ (V1.score text role extra).ats ≤ 10 ∧
      0 ≤ (V1.score text role extra).formatting ∧
        (V1.score text role extra).formatting ≤ 10) ∧
    (∀ (text : List Char) (role : String) (jd : List Char) (sim : ℚ), 0 ≤ sim →
      0 ≤ (V2.score text role jd sim).total ∧ (V2.score text role jd sim).total ≤ 105 ∧
      0 ≤ (V2.score text role jd sim).jd ∧ (V2.score text role jd sim).jd ≤ 35 ∧
      0 ≤ (V2.score text role jd sim).keywords ∧ (V2.score text role jd sim).keywords ≤ 25 ∧
      0 ≤ (V2.score text role jd sim).structure_pts ∧
        (V2.score text role jd sim).structure_pts ≤ 15 ∧
      0 ≤ (V2.score text role jd sim).impact ∧ (V2.score text role jd sim).impact ≤ 15 ∧
      0 ≤ (V2.score text role jd sim).ats ∧ (V2.score text role jd sim).ats ≤ 10 ∧
      0 ≤ (V2.score text role jd sim).educerts ∧ (V2.score text role jd sim).educerts ≤ 5) := by
  constructor
  · intro text role extra
    obtain ⟨hs0, hs1⟩ := structPts_bounds_V1 text
    obtain ⟨hk0, hk1⟩ : 0 ≤ V1.kwPts text role extra ∧ V1.kwPts text role extra ≤ 30 :=
      kwPtsOf_bounds_V1 _
    obtain ⟨hi0, hi1⟩ : 0 ≤ V1.impactPts text ∧ V1.impactPts text ≤ 20 :=
      impactPtsOf_bounds_V1 _ _
    obtain ⟨he0, he1⟩ : 0 ≤ V1.eduPts text ∧ V1.eduPts text ≤ 10 := eduPtsOf_bounds_V1 _ _
    obtain ⟨ha0, ha1⟩ : 0 ≤ V1.atsPts text ∧ V1.atsPts text ≤ 10 := atsPtsOf_bounds _ _ _ _
    obtain ⟨hf0, hf1⟩ : 0 ≤ V1.fmtPts text ∧ V1.fmtPts text ≤ 10 := fmtPtsOf_bounds _
    have hr0 : 0 ≤ V1.rawSum text role extra := by unfold V1.rawSum; linarith
    have hr1 : V1.rawSum text role extra ≤ ((100 : ℤ) : ℚ) := by
      unfold V1.rawSum; push_cast; linarith
    obtain ⟨ht0, ht1⟩ := round1_bounds_of hr0 hr1
    refine ⟨ht0, by exact_mod_cast ht1, hs0, hs1, ?_, ?_, ?_, ?_, ?_, ?_, ?_, ?_, ?_, ?_⟩
    · exact round1_nonneg hk0
    · exact_mod_cast round1_le_intCast (n := 30) (by exact_mod_cast hk1)
    · exact round1_nonneg hi0
    · exact_mod_cast round1_le_intCast (n := 20) (by exact_mod_cast hi1)
    · exact round1_nonneg he0
    · exact_mod_cast round1_le_intCast (n := 10) (by exact_mod_cast he1)
    · exact round1_nonneg ha0
    · exact_mod_cast round1_le_intCast (n := 10) (by exact_mod_cast ha1)
    · exact round1_nonneg hf0
    · exact_mod_cast round1_le_intCast (n := 10) (by exact_mod_cast hf1)
  · intro text role jd sim hsim
    obtain ⟨hj0, hj1⟩ : 0 ≤ V2.jdPts jd sim ∧ V2.jdPts jd sim ≤ 35 :=
      jdPtsOf_bounds _ hsim
    obtain ⟨hk0, hk1⟩ : 0 ≤ V2.kwPts text role ∧ V2.kwPts text role ≤ 25 :=
      kwPtsOf_bounds_V2 _ _
    obtain ⟨hs0, hs1⟩ := structPts_bounds_V2 text
    obtain ⟨hi0, hi1⟩ : 0 ≤ V2.impactPts text ∧ V2.impactPts text ≤ 15 :=
      impactPtsOf_bounds_V2 _ _
    obtain ⟨ha0, ha1⟩ : 0 ≤ V2.atsPts text ∧ V2.atsPts text ≤ 10 := atsPtsOf_bounds_V2 _ _ _ _
    obtain ⟨he0, he1⟩ : 0 ≤ V2.eduPts text ∧ V2.eduPts text ≤ 5 := eduPtsOf_bounds_V2 _ _
    have hr0 : 0 ≤ V2.rawSum text role jd sim := by unfold V2.rawSum; linarith
    have hr1 : V2.rawSum text role jd sim ≤ ((105 : ℤ) : ℚ) := by
      unfold V2.rawSum; push_cast; linarith
    obtain ⟨ht0, ht1⟩ := round1_bounds_of hr0 hr1
    exact ⟨ht0, by exact_mod_cast ht1, hj0, hj1, hk0, hk1, hs0, hs1, hi0, hi1, ha0, ha1,
      he0, he1⟩

/-- C1 (witness): the bounds at a concrete call of each variant. -/
theorem c1_score_bounds_witness :
    (0 ≤ (V1.score ("sql".toList) "Data Analyst" []).total ∧
      (V1.score ("sql".toList) "Data Analyst" []).total ≤ 100) ∧
    0 ≤ (0 : ℚ) ∧
    (0 ≤ (V2.score ("sql".toList) "Data Analyst" [] 0).total ∧
      (V2.score ("sql".toList) "Data Analyst" [] 0).total ≤ 105) := by
  have h1 := (c1_score_bounds.1 ("sql".toList) "Data Analyst" [])
  have h2 := (c1_score_bounds.2 ("sql".toList) "Data Analyst" [] 0 (by norm_num))
  exact ⟨⟨h1.1, h1.2.1⟩, by norm_num, h2.1, h2.2.1⟩

def bigResume : List Char := String.toList
  ("summary experience education skills certifications excel sql python pandas power bi tableau dax visualization dashboard etl statistics a/b testing business intelligence insights kpi data cleaning data model storytelling led built created developed designed launched 10 20 30 40 50 60 a@b.co 1234567890 college certified pmp • • • • •")

set_option maxRecDepth 1000000 in
/-- C1 (counterexample): a resume text holding every Data Analyst keyword,
all five catalog sections, seven numeric tokens, six action verbs, an
email, a phone number, five bullets, an education and two certification
terms, scored against itself as job description (modelled similarity 1, as
the tf-idf model proves for identical texts), totals 105 in the JD variant,
refuting the claimed sum of band maxima 100. -/
theorem c1_counterexample :
    Tfidf.sim bigResume bigResume = 1 ∧
    20 < countWords bigResume ∧
    (V2.score bigResume "Data Analyst" bigResume 1).total = 105 ∧
    ¬((V2.score bigResume "Data Analyst" bigResume 1).total ≤ 100) := by
  have htok : Tfidf.tokens bigResume ≠ [] := by decide
  have hsim : Tfidf.sim bigResume bigResume = 1 :=
    Tfidf.sim_self (Tfidf.dotP_self_pos htok)
  have hj : V2.jdPts bigResume 1 = 35 := by
    unfold V2.jdPts
    rw [show V2.jdGate bigResume = true from by decide]
    unfold V2.jdPtsOf
    rw [if_pos rfl]
    rw [show (1 : ℚ) * 35 = ((35 : ℤ) : ℚ) from by norm_num, round1_intCast]
    norm_num
  have hk : V2.kwPts bigResume "Data Analyst" = 25 := by
    unfold V2.kwPts
    rw [show V2.foundLen bigResume "Data Analyst" = 18 from by decide,
      show V2.setSize "Data Analyst" = 18 from by decide]
    unfold V2.kwPtsOf V2.coverageOf
    rw [show ((18 : ℕ) : ℚ) / ((18 : ℕ) : ℚ) * 25 + min ((18 : ℕ) : ℚ) 12 = ((37 : ℤ) : ℚ)
      from by norm_num, round1_intCast]
    norm_num
  have hst : V2.structPts bigResume = 15 := by
    rw [structPts_eq_V2, show V2.structHitCount bigResume = 5 from by decide]
    rw [show ((5 : ℕ) : ℚ) * (15 / 5) = ((15 : ℤ) : ℚ) from by norm_num, round1_intCast]
    norm_num
  have hi : V2.impactPts bigResume = 15 := by
    unfold V2.impactPts
    rw [show V2.numsC bigResume = 7 from by decide, show V2.actC bigResume = 6 from by decide]
    unfold V2.impactPtsOf
    rw [show min ((7 : ℕ) : ℚ) 6 * 1.8 + min ((6 : ℕ) : ℚ) 6 * 0.9 = ((162 : ℤ) : ℚ) / 10
      from by norm_num, round1_tenth]
    norm_num
  have ha : V2.atsPts bigResume = 10 := by
    unfold V2.atsPts
    rw [show V2.emailB bigResume = true from by decide,
      show V2.phoneB bigResume = true from by decide,
      show V2.bulletsC bigResume = 5 from by decide,
      show V2.specialsB bigResume = true from by decide]
    norm_num [V2.atsPtsOf]
  have he : V2.eduPts bigResume = 5 := by
    unfold V2.eduPts
    rw [show V2.eduH bigResume = 1 from by decide, show V2.certH bigResume = 2 from by decide]
    unfold V2.eduPtsOf
    rw [show (if (0 : ℕ) < 1 then (1 : ℚ) else 0) * 3 + min ((2 : ℕ) : ℚ) 2 * 1 = ((5 : ℤ) : ℚ)
      from by norm_num, round1_intCast]
    norm_num
  have htot : (V2.score bigResume "Data Analyst" bigResume 1).total = 105 := by
    simp only [V2.score]
    unfold V2.totalQ V2.rawSum
    rw [hj, hk, hst, hi, ha, he]
    rw [show (35 : ℚ) + 25 + 15 + 15 + 10 + 5 = ((105 : ℤ) : ℚ) from by norm_num,
      round1_intCast]
    norm_num
  refine ⟨hsim, by decide, htot, ?_⟩
  rw [htot]
  norm_num

def the21 : List Char := String.toList
  ("the the the the the the the the the the the the the the the the the the the the the")

set_option maxRecDepth 100000 in
/-- C2: at resume text `"the"` with a 21-word job description consisting
only of the stop word `"the"`, the JD branch guard of the v2 `score_resume`
holds, and after stop-word removal both documents tokenize to nothing, so
the vectorizer behind `tfidf_similarity` is fed an empty vocabulary (the
spec-modelled similarity totalizes this case to 0; the real library raises
there). -/
theorem c2_jd_branch_empty_vocab :
    V2.jdGate the21 = true ∧
    Tfidf.tokens ("the".toList) = [] ∧
    Tfidf.tokens the21 = [] ∧
    Tfidf.vocab ("the".toList) the21 = [] ∧
    Tfidf.sim ("the".toList) the21 = 0 := by
  have hd : Tfidf.dotP ("the".toList) ("the".toList) = 0 := by
    unfold Tfidf.dotP
    rw [show Tfidf.vocab ("the".toList) ("the".toList) = [] from by decide]
    simp
  refine ⟨by decide, by decide, by decide, by decide, ?_⟩
  unfold Tfidf.sim
  rw [if_pos (Or.inl hd)]

set_option maxRecDepth 100000 in
/-- C8 (counterexample): a 21-word job description made only of stop words
satisfies the claim's "more than 20 words" hypothesis, yet the similarity
of the text with itself is 0 (the tf-idf vectors are empty), not 1.0. -/
theorem c8_counterexample :
    20 < countWords the21 ∧ Tfidf.sim the21 the21 = 0 ∧ (0 : ℝ) ≠ 1 := by
  have hd : Tfidf.dotP the21 the21 = 0 := by
    unfold Tfidf.dotP
    rw [show Tfidf.vocab the21 the21 = [] from by decide]
    simp
  refine ⟨by decide, ?_, by norm_num⟩
  unfold Tfidf.sim
  rw [if_pos (Or.inl hd)]

/-- C8 (amended): for identical resume and job-description texts of more
than 20 words that contain at least one non-stop-word token, the modelled
similarity is exactly 1 and the JD Similarity sub-score is the full
35-point band; for a job description of fewer than 20 words (or absent),
the JD Similarity sub-score is exactly 0 and the paste-a-job-description
suggestion is in the returned list. -/
theorem c8_similarity :
    (∀ t : List Char, 20 < countWords t → Tfidf.tokens t ≠ [] →
      Tfidf.sim t t = 1 ∧ ∀ role : String, (V2.score t role t 1).jd = 35) ∧
    (∀ (text : List Char) (role : String) (jd : List Char) (sim : ℚ),
      countWords jd < 20 →
      (V2.score text role jd sim).jd = 0 ∧
      "Paste a Job Description to improve match scoring."
        ∈ (V2.score text role jd sim).suggestions) := by
  constructor
  · intro t hwc htok
    have hne : t ≠ [] := by
      intro h
      rw [h] at hwc
      exact absurd hwc (by decide)
    have hempty : t.isEmpty = false := by
      cases t with
      | nil => exact absurd rfl hne
      | cons c cs => rfl
    have hgate : V2.jdGate t = true := by
      unfold V2.jdGate
      rw [hempty]
      simp [hwc]
    refine ⟨Tfidf.sim_self (Tfidf.dotP_self_pos htok), ?_⟩
    intro role
    simp only [V2.score]
    unfold V2.jdPts
    rw [hgate]
    unfold V2.jdPtsOf
    rw [if_pos rfl]
    rw [show (1 : ℚ) * 35 = ((35 : ℤ) : ℚ) from by norm_num, round1_intCast]
    norm_num
  · intro text role jd sim hwc
    have hng : ¬(20 < countWords jd) := by omega
    have hgate : V2.jdGate jd = false := by
      unfold V2.jdGate
      simp [hng]
    constructor
    · simp only [V2.score]
      unfold V2.jdPts
      rw [hgate]
      simp [V2.jdPtsOf]
    · simp only [V2.score]
      unfold V2.sugg
      unfold V2.suggAll
      rw [hgate]
      simp only [Bool.false_eq_true, if_false, List.singleton_append]
      exact mem_dedup_take_head _ _ _ (by norm_num)

def sample21 : List Char := String.toList
  ("aa ab ac ad ae af ag ah ai aj ba bb bc bd be bf bg bh bi bj ca")

set_option maxRecDepth 100000 in
/-- C8 (witness): a concrete 21-word text with non-stop-word content on
which the identical-text similarity is 1, plus the absent-JD side at a
concrete call. -/
theorem c8_similarity_witness :
    20 < countWords sample21 ∧ Tfidf.tokens sample21 ≠ [] ∧
    Tfidf.sim sample21 sample21 = 1 ∧
    countWords ([] : List Char) < 20 ∧
    (V2.score [] "General / Fresher" [] 0).jd = 0 ∧
    "Paste a Job Description to improve match scoring."
      ∈ (V2.score [] "General / Fresher" [] 0).suggestions :=
  ⟨by decide, by decide, (c8_similarity.1 sample21 (by decide) (by decide)).1,
   by decide, (c8_similarity.2 [] "General / Fresher" [] 0 (by decide)).1,
   (c8_similarity.2 [] "General / Fresher" [] 0 (by decide)).2⟩

theorem readCell_append {h : List (List String)} {a : Nat} (l : List (List String))
    (ha : a < h.length) : Store.readCell (h ++ l) a = Store.readCell h a := by
  unfold Store.readCell
  simp only [List.getD, List.get?_eq_getElem?]
  rw [List.getElem?_append]
  simp [ha]

theorem readCell_set_ne {l : List (List String)} {b a : Nat} (v : List String)
    (hne : b ≠ a) : Store.readCell (l.set b v) a = Store.readCell l a := by
  unfold Store.readCell
  simp only [List.getD, List.get?_eq_getElem?]
  rw [List.getElem?_set_ne hne]

theorem readCell_append_self (h : List (List String)) (x : List String) :
    Store.readCell (h ++ [x]) h.length = x := by
  unfold Store.readCell
  simp only [List.getD, List.get?_eq_getElem?]
  rw [List.getElem?_append_right le_rfl]
  simp

theorem readCell_set_self {l : List (List String)} {b : Nat} (v : List String)
    (hb : b < l.length) : Store.readCell (l.set b v) b = v := by
  unfold Store.readCell
  simp only [List.getD, List.get?_eq_getElem?]
  rw [List.getElem?_set_self]
  · simp
  · exact hb

/-- C9: a scoring call never mutates the role-keyword table.  In the store
model, the flat-rate variant's keyword preparation (`get`, `.copy()`, `+=`)
leaves every table-reachable cell unchanged — the extra keywords land only
in the freshly allocated per-request cell — and the JD variant's
preparation returns the store untouched. -/
theorem c9_no_table_mutation (h : List (List String)) (t : List (String × Nat))
    (role : String) (extra : List Char)
    (hv : ∀ p ∈ t, p.2 < h.length)
    (hg : ∃ p ∈ t, p.1 = "General / Fresher") :
    (∀ r, Store.readRole (Store.prepV1 h t role extra).1 t r = Store.readRole h t r) ∧
    Store.readCell (Store.prepV1 h t role extra).1 (Store.prepV1 h t role extra).2 =
      Store.readRole h t role ++
        (if extra.isEmpty then [] else (parseExtra extra).map strOf) ∧
    (Store.prepV2 h t role).1 = h := by
  have hb : h.length <
      (h ++ [Store.readCell h (Store.getAddr t role (Store.generalAddr t))]).length := by
    simp
  refine ⟨?_, ?_, rfl⟩
  · intro r
    unfold Store.readRole
    have ha : Store.getAddr t r (Store.generalAddr t) < h.length := Store.getAddr_lt hv hg r
    simp only [Store.prepV1]
    split_ifs with hx
    · exact readCell_append _ ha
    · rw [readCell_set_ne _ (by omega : h.length ≠ Store.getAddr t r (Store.generalAddr t))]
      exact readCell_append _ ha
  · simp only [Store.prepV1]
    split_ifs with hx
    · rw [readCell_append_self]
      unfold Store.readRole
      simp
    · rw [readCell_set_self _ hb]
      unfold Store.readRole
      rfl

/-- C9 (witness): a concrete two-cell store with two roles, scored with an
extra keyword; every role still reads its original keyword list afterwards. -/
theorem c9_no_table_mutation_witness :
    (∀ p ∈ [("General / Fresher", 0), ("Data Analyst", 1)],
      p.2 < ([["sql"], ["excel"]] : List (List String)).length) ∧
    (∃ p ∈ [("General / Fresher", 0), ("Data Analyst", 1)], p.1 = "General / Fresher") ∧
    (∀ r, Store.readRole
        (Store.prepV1 [["sql"], ["excel"]] [("General / Fresher", 0), ("Data Analyst", 1)]
          "Data Analyst" ("power bi".toList)).1
        [("General / Fresher", 0), ("Data Analyst", 1)] r =
      Store.readRole [["sql"], ["excel"]] [("General / Fresher", 0), ("Data Analyst", 1)] r) :=
  ⟨by decide, by decide,
   (c9_no_table_mutation [["sql"], ["excel"]] [("General / Fresher", 0), ("Data Analyst", 1)]
     "Data Analyst" ("power bi".toList) (by decide) (by decide)).1⟩

set_option maxRecDepth 200000 in
/-- C10 (counterexample): with the unknown role `"Chef"` on the empty text,
the missing-keyword suggestion interpolates the literal role name, so the
suggestion lists differ from a `"General / Fresher"` call even though the
keyword set is the same: the claim's "same missing-keyword suggestion"
is false. -/
theorem c10_counterexample :
    (V1.score [] "Chef" []).suggestions ≠ (V1.score [] "General / Fresher" []).suggestions ∧
    ("Include more role keywords (target: Chef). Missing examples: achievement, award, " ++
      "certification, communication, excel, internship, lead, presentation")
      ∈ (V1.score [] "Chef" []).suggestions ∧
    ("Include more role keywords (target: Chef). Missing examples: achievement, award, " ++
      "certification, communication, excel, internship, lead, presentation")
      ∉ (V1.score [] "General / Fresher" []).suggestions := by
  refine ⟨?_, by decide, by decide⟩
  decide

/-- C10 (amended): for every role name outside the static role-keyword
mapping, scoring falls back to the `"General / Fresher"` keyword set in
both variants: the keyword list, Keywords sub-score, total, and the set of
missing keywords all equal those of a `"General / Fresher"` call; only the
role name interpolated into the missing-keyword suggestion string differs. -/
theorem c10_unknown_role (text : List Char) (rl : String) (extra jd : List Char) (sim : ℚ)
    (h1 : ∀ p ∈ V1.roleTable, p.1 ≠ rl) (h2 : ∀ p ∈ V2.roleTable, p.1 ≠ rl) :
    V1.roleWords rl = V1.roleWords "General / Fresher" ∧
    (V1.score text rl extra).total = (V1.score text "General / Fresher" extra).total ∧
    (V1.score text rl extra).keywords = (V1.score text "General / Fresher" extra).keywords ∧
    V1.missingSorted text rl extra = V1.missingSorted text "General / Fresher" extra ∧
    V2.roleWords rl = V2.roleWords "General / Fresher" ∧
    (V2.score text rl jd sim).total = (V2.score text "General / Fresher" jd sim).total ∧
    (V2.score text rl jd sim).keywords = (V2.score text "General / Fresher" jd sim).keywords ∧
    V2.missingSorted text rl = V2.missingSorted text "General / Fresher" := by
  have e1 : V1.roleWords rl = V1.generalWords := by
    unfold V1.roleWords
    rw [List.find?_eq_none.2 (fun p hp => by simpa using h1 p hp)]
    rfl
  have e1g : V1.roleWords "General / Fresher" = V1.generalWords := by rfl
  have hrw1 : V1.roleWords rl = V1.roleWords "General / Fresher" := by rw [e1, e1g]
  have e2 : V2.roleWords rl = V2.generalWords := by
    unfold V2.roleWords
    rw [List.find?_eq_none.2 (fun p hp => by simpa using h2 p hp)]
    rfl
  have e2g : V2.roleWords "General / Fresher" = V2.generalWords := by rfl
  have hrw2 : V2.roleWords rl = V2.roleWords "General / Fresher" := by rw [e2, e2g]
  refine ⟨hrw1, ?_, ?_, ?_, hrw2, ?_, ?_, ?_⟩
  · simp only [V1.score]
    unfold V1.totalQ V1.rawSum V1.kwPts V1.foundLen V1.foundList V1.usedWords
    rw [hrw1]
  · simp only [V1.score]
    unfold V1.kwPts V1.foundLen V1.foundList V1.usedWords
    rw [hrw1]
  · unfold V1.missingSorted V1.usedWords
    rw [hrw1]
  · simp only [V2.score]
    unfold V2.totalQ V2.rawSum V2.kwPts V2.foundLen V2.foundList V2.setSize
    rw [hrw2]
  · simp only [V2.score]
    unfold V2.kwPts V2.foundLen V2.foundList V2.setSize
    rw [hrw2]
  · unfold V2.missingSorted
    rw [hrw2]

set_option maxRecDepth 100000 in
/-- C10 (witness): the fallback at the concrete unknown role `"Chef"`. -/
theorem c10_unknown_role_witness :
    (∀ p ∈ V1.roleTable, p.1 ≠ "Chef") ∧ (∀ p ∈ V2.roleTable, p.1 ≠ "Chef") ∧
    V1.roleWords "Chef" = V1.roleWords "General / Fresher" ∧
    V2.roleWords "Chef" = V2.roleWords "General / Fresher" :=
  ⟨by decide, by decide,
   (c10_unknown_role [] "Chef" [] [] 0 (by decide) (by decide)).1,
   (c10_unknown_role [] "Chef" [] [] 0 (by decide) (by decide)).2.2.2.2.1⟩
